import Mathlib

/-!
Shallow embedding of the diagram-analysis services of the
`visualize-process-ai` repository (DiagramValidator, RecommendationEngine,
ProcessAnalyzer, ComplexityAnalyzer) and verification of the frozen claims
about them.

Modelling conventions, used consistently below:

* A JavaScript string-or-`undefined` value is `Option String` (`none` is
  `undefined`).  JS `===` on such values is `Option.decEq` / `==`; JS
  truthiness of a string value (`undefined` and `""` are falsy) is `truthy`.
* JS objects appearing in the code become Lean structures whose optional
  properties are `Option`-typed with default `none`.
* The services never use fractional machine arithmetic in a way that can
  overflow; JS numbers are modelled as `Nat`, `Int` or `ℚ` as appropriate.
  JS division by zero yields `NaN`/`Infinity`; we model division with
  `jsDiv` (Lean's `q / 0 = 0` convention) and note at each use site that no
  verified claim depends on a zero-denominator value.
* JS `Set` objects (insertion ordered, no duplicates) are lists to which an
  element is appended only when not yet present; `Set.delete` is
  `List.erase`.
* Recursive traversals in the source have no explicit termination measure
  (they terminate because the visited set grows).  They are embedded with an
  explicit fuel parameter chosen large enough (proved where a claim needs
  it) that the fuel never runs out on the function's actual call graph.
* The thrown `TypeError` of a property access on `undefined` is modelled by
  `Except.error` with a fixed message text (the exact wording of the message
  is JS-engine specific).
-/

namespace VisualizeProcess

/-- A JavaScript string-or-undefined value (ids, types, labels, ...). -/
abbrev JsStr := Option String

/-- JS truthiness of a string-or-undefined value: `undefined` and the empty
string are falsy. -/
def truthy : JsStr → Bool
  | none => false
  | some s => s ≠ ""

/-- String interpolation of a possibly-undefined JS string value:
`undefined` prints as "undefined". -/
def jsShow : JsStr → String
  | none => "undefined"
  | some s => s

/-- JS object-property key for a string-or-undefined value: property keys
are strings and `undefined` is coerced to the key "undefined". -/
def jsKey : JsStr → String
  | none => "undefined"
  | some s => s

/-- JS `Math.round`: round half towards positive infinity. -/
def jsRound (q : ℚ) : Int := ⌊q + 1/2⌋

/-- JS division, modelled with Lean's `q / 0 = 0` convention.  In JS a zero
denominator yields `NaN` or `±Infinity` instead; no verified claim depends
on a value produced by a zero-denominator division. -/
def jsDiv (a b : ℚ) : ℚ := a / b

/-- JS `String.prototype.trim`: strip leading and trailing whitespace
(defined over the character list so that it computes by structural
recursion). -/
def jsTrim (s : String) : String :=
  String.mk (((s.toList.dropWhile Char.isWhitespace).reverse.dropWhile
    Char.isWhitespace).reverse)

/-- Substring test, as JS `String.prototype.includes`. -/
def strIncludes (hay needle : String) : Bool :=
  hay.toList.tails.any (fun t => needle.toList.isPrefixOf t)

/-- The free-form `data` object of a node; the properties the analysis
services read.  Absent properties are `none`. -/
structure NodeData where
  label : JsStr := none
  description : JsStr := none
  elementType : JsStr := none
  operation : JsStr := none
  table : JsStr := none
  method : JsStr := none
  endpoint : JsStr := none
  condition : JsStr := none
  serviceType : JsStr := none
  fields : Option (List String) := none
  deriving DecidableEq

/-- A diagram node.  `position` is `some` exactly when the JS value is an
object with numeric `x`/`y` (the coordinates themselves never influence the
analysis, only their validity); `data` is `some` when the node has a data
object. -/
structure Node where
  id : JsStr := none
  type : JsStr := none
  position : Option (Int × Int) := none
  data : Option NodeData := none
  deriving DecidableEq

/-- A diagram edge. -/
structure Edge where
  id : JsStr := none
  source : JsStr := none
  target : JsStr := none
  label : JsStr := none
  animated : Bool := false
  deriving DecidableEq

/-- The diagram (visualization) object handed to the public operations.
`nodes`/`edges` are `none` when the property is absent (`undefined`);
when present they are arrays. -/
structure Diagram where
  id : JsStr := none
  name : JsStr := none
  nodes : Option (List Node) := none
  edges : Option (List Edge) := none
  deriving DecidableEq

/-- A validation finding (error / warning / suggestion object).  The
optional attachment properties are present only on the findings that carry
them in the source. -/
structure Finding where
  ftype : String
  message : String
  severity : String
  nodeId : Option JsStr := none
  edgeId : Option JsStr := none
  nodeIndex : Option Nat := none
  edgeIndex : Option Nat := none
  cycle : Option (List JsStr) := none
  deriving DecidableEq

/-- The edges leaving `nodeId`: `edges.filter(edge => edge.source === nodeId)`. -/
def outgoingEdges (edges : List Edge) (nodeId : JsStr) : List Edge :=
  edges.filter (fun e => e.source == nodeId)

/-- The label shown in messages: `node.data?.label || 'Untitled'`. -/
def labelOr (n : Node) : String :=
  match n.data.bind (·.label) with
  | some s => if s = "" then "Untitled" else s
  | none => "Untitled"

namespace DiagramValidator

/-- `isValidNodeType` of DiagramValidator. -/
def isValidNodeType (t : String) : Bool :=
  t ∈ ["html-element", "database", "api-call", "decision",
       "user-action", "external-service", "start", "end"]

/-- `validateBasicStructure`: the errors it pushes, in push order.  The
`missing_data` branch (a `null` visualization) and the `invalid_edges`
branch (a truthy non-array `edges` property) are outside the modelled
input domain, in which the visualization is an object and a present
`nodes`/`edges` property is an array. -/
def validateBasicStructure (v : Diagram) : List Finding :=
  (if ¬ truthy v.id then
    [{ ftype := "missing_id", message := "Visualization must have an ID",
       severity := "error" }]
   else []) ++
  (if v.name = none ∨ jsTrim (jsShow v.name) = "" then
    [{ ftype := "missing_name", message := "Visualization must have a name",
       severity := "error" }]
   else []) ++
  (if v.nodes = none then
    [{ ftype := "invalid_nodes", message := "Nodes must be an array",
       severity := "error" }]
   else [])

/-- `validateNodeData`: the warnings pushed for one node with data `d`. -/
def validateNodeData (node : Node) (d : NodeData) : List Finding :=
  (if ¬ truthy d.label then
    [{ ftype := "missing_node_label",
       message := "Node " ++ jsShow node.id ++ " should have a descriptive label",
       severity := "warning", nodeId := some node.id }]
   else []) ++
  (if node.type == some "html-element" then
    (if ¬ truthy d.elementType then
      [{ ftype := "missing_element_type",
         message := "HTML element node " ++ jsShow node.id ++ " should specify element type",
         severity := "warning", nodeId := some node.id }]
     else [])
   else if node.type == some "database" then
    (if ¬ truthy d.operation ∨ ¬ truthy d.table then
      [{ ftype := "incomplete_database_spec",
         message := "Database node " ++ jsShow node.id ++ " should specify operation and table",
         severity := "warning", nodeId := some node.id }]
     else [])
   else if node.type == some "api-call" then
    (if ¬ truthy d.method ∨ ¬ truthy d.endpoint then
      [{ ftype := "incomplete_api_spec",
         message := "API call node " ++ jsShow node.id ++ " should specify method and endpoint",
         severity := "warning", nodeId := some node.id }]
     else [])
   else if node.type == some "decision" then
    (if ¬ truthy d.condition then
      [{ ftype := "missing_decision_condition",
         message := "Decision node " ++ jsShow node.id ++ " should specify the condition",
         severity := "warning", nodeId := some node.id }]
     else [])
   else [])

/-- One step of the `nodes.forEach` loop of `validateNodes`: the errors and
warnings pushed for `node` at index `idx`, the updated id set, and the
updated start/end trackers. -/
def validateNodeStep (node : Node) (idx : Nat) (seen : List String)
    (hasStart hasEnd : Bool) :
    List Finding × List Finding × List String × Bool × Bool :=
  let idErrs : List Finding :=
    if ¬ truthy node.id then
      [{ ftype := "missing_node_id",
         message := "Node at index " ++ toString idx ++ " is missing an ID",
         severity := "error", nodeIndex := some idx }]
    else if jsShow node.id ∈ seen then
      [{ ftype := "duplicate_node_id",
         message := "Duplicate node ID: " ++ jsShow node.id,
         severity := "error", nodeId := some node.id }]
    else []
  let seen' : List String :=
    if truthy node.id ∧ jsShow node.id ∉ seen then seen ++ [jsShow node.id] else seen
  let typeErrs : List Finding :=
    if ¬ truthy node.type then
      [{ ftype := "missing_node_type",
         message := "Node " ++ jsShow node.id ++ " is missing a type",
         severity := "error", nodeId := some node.id }]
    else if ¬ isValidNodeType (jsShow node.type) then
      [{ ftype := "invalid_node_type",
         message := "Invalid node type: " ++ jsShow node.type,
         severity := "error", nodeId := some node.id }]
    else []
  let hasStart' := hasStart || (truthy node.type && node.type == some "start")
  let hasEnd' := hasEnd || (truthy node.type && node.type == some "end")
  let posWarns : List Finding :=
    if node.position = none then
      [{ ftype := "missing_position",
         message := "Node " ++ jsShow node.id ++ " has invalid or missing position",
         severity := "warning", nodeId := some node.id }]
    else []
  let dataWarns : List Finding :=
    match node.data with
    | none =>
      [{ ftype := "missing_node_data",
         message := "Node " ++ jsShow node.id ++ " is missing data object",
         severity := "warning", nodeId := some node.id }]
    | some d => validateNodeData node d
  (idErrs ++ typeErrs, posWarns ++ dataWarns, seen', hasStart', hasEnd')

/-- The `nodes.forEach` loop of `validateNodes`. -/
def validateNodesGo : List Node → Nat → List String → Bool → Bool →
    List Finding × List Finding × Bool × Bool
  | [], _, _, hasStart, hasEnd => ([], [], hasStart, hasEnd)
  | node :: rest, idx, seen, hasStart, hasEnd =>
    let (es, ws, seen', hs, he) := validateNodeStep node idx seen hasStart hasEnd
    let (restEs, restWs, hs', he') := validateNodesGo rest (idx + 1) seen' hs he
    (es ++ restEs, ws ++ restWs, hs', he')

/-- `validateNodes`: returns (errors, warnings) in push order. -/
def validateNodes (nodes : List Node) : List Finding × List Finding :=
  if nodes.length = 0 then
    ([{ ftype := "empty_diagram",
        message := "Diagram must contain at least one node",
        severity := "error" }], [])
  else
    let (es, ws, hasStart, hasEnd) := validateNodesGo nodes 0 [] false false
    (es,
     ws ++
     (if ¬ hasStart then
       [{ ftype := "missing_start_node",
          message := "Diagram should have at least one start node",
          severity := "warning" }]
      else []) ++
     (if ¬ hasEnd then
       [{ ftype := "missing_end_node",
          message := "Diagram should have at least one end node",
          severity := "warning" }]
      else []))

/-- One step of the `edges.forEach` loop of `validateEdges`. -/
def validateEdgeStep (edge : Edge) (idx : Nat) (nodeIds : List String)
    (seen : List String) : List Finding × List Finding × List String :=
  let idErrs : List Finding :=
    if ¬ truthy edge.id then
      [{ ftype := "missing_edge_id",
         message := "Edge at index " ++ toString idx ++ " is missing an ID",
         severity := "error", edgeIndex := some idx }]
    else if jsShow edge.id ∈ seen then
      [{ ftype := "duplicate_edge_id",
         message := "Duplicate edge ID: " ++ jsShow edge.id,
         severity := "error", edgeId := some edge.id }]
    else []
  let seen' : List String :=
    if truthy edge.id ∧ jsShow edge.id ∉ seen then seen ++ [jsShow edge.id] else seen
  let sourceErrs : List Finding :=
    if ¬ truthy edge.source then
      [{ ftype := "missing_edge_source",
         message := "Edge " ++ jsShow edge.id ++ " is missing a source node",
         severity := "error", edgeId := some edge.id }]
    else if jsShow edge.source ∉ nodeIds then
      [{ ftype := "invalid_edge_source",
         message := "Edge " ++ jsShow edge.id ++
           " references non-existent source node: " ++ jsShow edge.source,
         severity := "error", edgeId := some edge.id }]
    else []
  let targetErrs : List Finding :=
    if ¬ truthy edge.target then
      [{ ftype := "missing_edge_target",
         message := "Edge " ++ jsShow edge.id ++ " is missing a target node",
         severity := "error", edgeId := some edge.id }]
    else if jsShow edge.target ∉ nodeIds then
      [{ ftype := "invalid_edge_target",
         message := "Edge " ++ jsShow edge.id ++
           " references non-existent target node: " ++ jsShow edge.target,
         severity := "error", edgeId := some edge.id }]
    else []
  let selfLoopWarns : List Finding :=
    if edge.source == edge.target then
      [{ ftype := "self_loop",
         message := "Edge " ++ jsShow edge.id ++ " creates a self-loop on node " ++
           jsShow edge.source,
         severity := "warning", edgeId := some edge.id }]
    else []
  (idErrs ++ sourceErrs ++ targetErrs, selfLoopWarns, seen')

/-- The `edges.forEach` loop of `validateEdges`. -/
def validateEdgesGo : List Edge → Nat → List String → List String →
    List Finding × List Finding
  | [], _, _, _ => ([], [])
  | edge :: rest, idx, nodeIds, seen =>
    let (es, ws, seen') := validateEdgeStep edge idx nodeIds seen
    let (restEs, restWs) := validateEdgesGo rest (idx + 1) nodeIds seen'
    (es ++ restEs, ws ++ restWs)

/-- The truthy node ids: `new Set(nodes.map(n => n.id).filter(id => id))`. -/
def truthyNodeIds (nodes : List Node) : List String :=
  (nodes.map (·.id)).filterMap
    (fun i => match i with | some s => if s = "" then none else some s | none => none)

/-- `validateEdges`: returns (errors, warnings) in push order. -/
def validateEdges (edges : List Edge) (nodes : List Node) :
    List Finding × List Finding :=
  if edges.length = 0 then
    ([], [{ ftype := "no_connections",
            message := "Diagram has no connections between nodes",
            severity := "warning" }])
  else validateEdgesGo edges 0 (truthyNodeIds nodes) []

/-- The depth-first marking of `findReachableNodes`, with explicit fuel.
Each productive call appends one new id to the reachable set, so any fuel
exceeding the number of ids that can ever be added is sufficient. -/
def traverse (edges : List Edge) : Nat → List JsStr → JsStr → List JsStr
  | 0, reach, _ => reach
  | fuel + 1, reach, nodeId =>
    if nodeId ∈ reach then reach
    else (outgoingEdges edges nodeId).foldl
      (fun r e => traverse edges fuel r e.target) (reach ++ [nodeId])

/-- `findReachableNodes`: depth-first marking from the nodes typed `start`. -/
def findReachableNodes (nodes : List Node) (edges : List Edge) : List JsStr :=
  (nodes.filter (fun n => n.type == some "start")).foldl
    (fun r n => traverse edges (nodes.length + edges.length + 1) r n.id) []

/-- State of the `detectCycles` DFS: the collected cycles, the visited set,
the recursion stack and the current path. -/
structure CycleState where
  cycles : List (List JsStr) := []
  visited : List JsStr := []
  stack : List JsStr := []
  path : List JsStr := []
  deriving DecidableEq

/-- The `dfs` of `detectCycles`.  On re-encountering a node on the
recursion stack it records `[...path.slice(path.indexOf(nodeId)), nodeId]`.
(The recursion stack is always a subset of the path, so the `indexOf`
always finds the node.) -/
def cycleDfs (edges : List Edge) : Nat → CycleState → JsStr → CycleState
  | 0, st, _ => st
  | fuel + 1, st, nodeId =>
    if nodeId ∈ st.stack then
      { st with cycles := st.cycles ++ [st.path.drop (st.path.indexOf nodeId) ++ [nodeId]] }
    else if nodeId ∈ st.visited then st
    else
      let st₁ : CycleState :=
        { st with visited := st.visited ++ [nodeId],
                  stack := st.stack ++ [nodeId],
                  path := st.path ++ [nodeId] }
      let st₂ := (outgoingEdges edges nodeId).foldl
        (fun s e => cycleDfs edges fuel s e.target) st₁
      { st₂ with stack := st₂.stack.erase nodeId, path := st₂.path.dropLast }

/-- `detectCycles`: white/gray/black DFS over all nodes. -/
def detectCycles (nodes : List Node) (edges : List Edge) : List (List JsStr) :=
  (nodes.foldl
    (fun st n =>
      if n.id ∈ st.visited then st
      else cycleDfs edges (nodes.length + edges.length + 1) st n.id)
    {}).cycles

/-- `validateFlow`: returns (errors, warnings); the source only pushes
warnings here. -/
def validateFlow (nodes : List Node) (edges : List Edge) :
    List Finding × List Finding :=
  let isolatedNodes := nodes.filter (fun node =>
    ¬ edges.any (fun e => e.target == node.id) ∧
    ¬ edges.any (fun e => e.source == node.id) ∧
    node.type ≠ some "start" ∧ node.type ≠ some "end")
  let isolatedWarns := isolatedNodes.map (fun node =>
    { ftype := "isolated_node",
      message := "Node " ++ jsShow node.id ++ " (" ++ labelOr node ++
        ") is not connected to any other nodes",
      severity := "warning", nodeId := some node.id : Finding })
  let reachable := findReachableNodes nodes edges
  let unreachableNodes := nodes.filter (fun node =>
    node.id ∉ reachable ∧ node.type ≠ some "start")
  let unreachableWarns := unreachableNodes.map (fun node =>
    { ftype := "unreachable_node",
      message := "Node " ++ jsShow node.id ++ " (" ++ labelOr node ++
        ") is not reachable from any start node",
      severity := "warning", nodeId := some node.id : Finding })
  let deadEnds := nodes.filter (fun node =>
    ¬ edges.any (fun e => e.source == node.id) ∧ node.type ≠ some "end")
  let deadEndWarns := deadEnds.map (fun node =>
    { ftype := "dead_end",
      message := "Node " ++ jsShow node.id ++ " (" ++ labelOr node ++
        ") has no outgoing connections",
      severity := "warning", nodeId := some node.id : Finding })
  let cycleWarns := (detectCycles nodes edges).map (fun cycle =>
    { ftype := "potential_cycle",
      message := "Potential infinite loop detected involving nodes: " ++
        String.intercalate " -> " (cycle.map jsShow),
      severity := "warning", cycle := some cycle : Finding })
  ([], isolatedWarns ++ unreachableWarns ++ deadEndWarns ++ cycleWarns)

/-- `validateSemantics`: returns (warnings, suggestions) in push order. -/
def validateSemantics (v : Diagram) : List Finding × List Finding :=
  let nodes := v.nodes.getD []
  let edges := v.edges.getD []
  let perNode := nodes.map (fun node =>
    let decisionWarns : List Finding :=
      if node.type == some "decision" ∧
         (outgoingEdges edges node.id).length < 2 then
        [{ ftype := "insufficient_decision_branches",
           message := "Decision node " ++ jsShow node.id ++
             " should have at least 2 outgoing paths",
           severity := "warning", nodeId := some node.id }]
      else []
    let dbSuggestions : List Finding :=
      if node.type == some "database" ∧ node.data.isSome ∧
         ¬ truthy (node.data.bind (·.operation)) then
        [{ ftype := "missing_db_operation",
           message := "Database node " ++ jsShow node.id ++
             " should specify the operation type",
           severity := "suggestion", nodeId := some node.id }]
      else []
    let apiSuggestions : List Finding :=
      if node.type == some "api-call" ∧ node.data.isSome ∧
         (¬ truthy (node.data.bind (·.method)) ∨
          ¬ truthy (node.data.bind (·.endpoint))) then
        [{ ftype := "incomplete_api_spec",
           message := "API call node " ++ jsShow node.id ++
             " should specify method and endpoint",
           severity := "suggestion", nodeId := some node.id }]
      else []
    (decisionWarns, dbSuggestions ++ apiSuggestions))
  let warns := perNode.flatMap (·.1)
  let nodeSuggestions := perNode.flatMap (·.2)
  let hasErrorHandling := nodes.any (fun node =>
    (match node.data.bind (·.label) with
     | some l => strIncludes l.toLower "error"
     | none => false) ||
    edges.any (fun edge =>
      match edge.label with
      | some l => strIncludes l.toLower "error"
      | none => false))
  let errorSuggestions : List Finding :=
    if ¬ hasErrorHandling then
      [{ ftype := "missing_error_handling",
         message := "Consider adding error handling paths to the process",
         severity := "suggestion" }]
    else []
  let hasAuthNode := nodes.any (fun node =>
    node.type == some "external-service" ∧
    node.data.bind (·.serviceType) == some "auth")
  let hasUserInput := nodes.any (fun node =>
    node.type == some "html-element" ∨ node.type == some "user-action")
  let authSuggestions : List Finding :=
    if hasUserInput ∧ ¬ hasAuthNode then
      [{ ftype := "missing_authentication",
         message := "Consider adding user authentication for processes involving user input",
         severity := "suggestion" }]
    else []
  (warns, nodeSuggestions ++ errorSuggestions ++ authSuggestions)

/-- `calculateValidationScore`: 100 minus 20 per error, 5 per warning and
1 per suggestion, clamped below at 0. -/
def calculateValidationScore (errors warnings suggestions : List Finding) : Int :=
  max 0 (100 - (errors.length : Int) * 20 - (warnings.length : Int) * 5 -
    (suggestions.length : Int) * 1)

/-- `generateValidationSummary`. -/
def generateValidationSummary (isValid : Bool) (errors warnings suggestions : List Finding) :
    String :=
  if isValid ∧ warnings.length = 0 ∧ suggestions.length = 0 then
    "Diagram is valid and well-structured with no issues detected."
  else
    let s₁ :=
      if ¬ isValid then
        "Diagram has " ++ toString errors.length ++ " error(s) that must be fixed. "
      else "Diagram structure is valid. "
    let s₂ :=
      if warnings.length > 0 then
        s₁ ++ toString warnings.length ++ " warning(s) detected that should be addressed. "
      else s₁
    let s₃ :=
      if suggestions.length > 0 then
        s₂ ++ toString suggestions.length ++ " suggestion(s) for improvement. "
      else s₂
    jsTrim s₃

/-- The structured result of `validateDiagram`. -/
structure ValidationResult where
  isValid : Bool
  errors : List Finding
  warnings : List Finding
  suggestions : List Finding
  score : Int
  summary : String
  deriving DecidableEq

/-- `validateDiagram`: the public validation operation.  Its body is total
on the modelled input domain, so its `try/catch` recovery branch (which
would return `isValid := false` with a `validation_error` finding and score
0) is never taken here; every failure mode inside the body is itself turned
into findings. -/
def validateDiagram (v : Diagram) : ValidationResult :=
  let basicErrors := validateBasicStructure v
  let (nodeErrors, nodeWarnings) := validateNodes (v.nodes.getD [])
  let (edgeErrors, edgeWarnings) := validateEdges (v.edges.getD []) (v.nodes.getD [])
  let (flowErrors, flowWarnings) := validateFlow (v.nodes.getD []) (v.edges.getD [])
  let (semWarnings, semSuggestions) := validateSemantics v
  let errors := basicErrors ++ nodeErrors ++ edgeErrors ++ flowErrors
  let warnings := nodeWarnings ++ edgeWarnings ++ flowWarnings ++ semWarnings
  let suggestions := semSuggestions
  let isValid := errors.length = 0
  { isValid := isValid
    errors := errors
    warnings := warnings
    suggestions := suggestions
    score := calculateValidationScore errors warnings suggestions
    summary := generateValidationSummary isValid errors warnings suggestions }

end DiagramValidator

/-- Insert `x` into `l` after every element `y` with `cmp y x ≤ 0`.  This is
the insertion step of a stable comparator sort. -/
def insertCmp (cmp : α → α → Int) (x : α) : List α → List α
  | [] => [x]
  | y :: ys => if cmp y x ≤ 0 then y :: insertCmp cmp x ys else x :: y :: ys

/-- Stable comparator sort, the embedding of JS `Array.prototype.sort(cmp)`.
ECMAScript requires the sort to be stable and, for a consistent comparator,
ordered by it; inserting each element in generation order after all
comparator-≤ predecessors realizes exactly that specification. -/
def sortCmp (cmp : α → α → Int) (l : List α) : List α :=
  l.foldl (fun acc x => insertCmp cmp x acc) []

/-- The `implementation` object of a recommendation. -/
structure Implementation where
  steps : List String
  estimatedTime : String
  technologies : List String
  deriving DecidableEq

/-- The `metrics` object some recommendations carry. -/
structure RecMetricsInfo where
  expectedImprovement : String
  measurableBy : List String
  deriving DecidableEq

/-- One entry of `identifyParallelProcessingOpportunities`. -/
structure ParallelOpportunity where
  forkNode : JsStr
  parallelBranches : Nat
  potentialSpeedup : ℚ
  deriving DecidableEq

/-- One entry of `identifyComplexNodes` (`ntype` is the node's `type`
property). -/
structure ComplexNodeInfo where
  nodeId : JsStr
  label : JsStr
  ntype : JsStr
  complexity : Nat
  isComplex : Bool
  deriving DecidableEq

/-- The `details` object some recommendations carry. -/
inductive RecDetails where
  | opportunities (l : List ParallelOpportunity)
  | complexComponents (l : List ComplexNodeInfo)
  | circularDependencies (l : List (List JsStr))
  deriving DecidableEq

/-- A recommendation as generated by the rule checks. -/
structure Rec where
  category : String
  priority : String
  title : String
  description : String
  impact : String
  effort : String
  implementation : Implementation
  metricsInfo : Option RecMetricsInfo := none
  details : Option RecDetails := none
  deriving DecidableEq

/-- A returned recommendation: the generated object (`payload`, whose
properties the source spreads into the result) together with the assigned
`id` and 1-based `rank`. -/
structure RankedRec where
  id : String
  payload : Rec
  rank : Nat
  deriving DecidableEq

namespace RecommendationEngine

/-- `identifyParallelProcessingOpportunities`. -/
def identifyParallelProcessingOpportunities (nodes : List Node) (edges : List Edge) :
    List ParallelOpportunity :=
  nodes.filterMap (fun node =>
    let outs := outgoingEdges edges node.id
    if outs.length > 1 then
      some { forkNode := node.id, parallelBranches := outs.length,
             potentialSpeedup := min ((outs.length : ℚ) * (0.8 : ℚ)) 3 }
    else none)

/-- `identifyComplexNodes`: connectivity-scored nodes, complex ones only,
sorted by descending complexity. -/
def identifyComplexNodes (nodes : List Node) (edges : List Edge) :
    List ComplexNodeInfo :=
  sortCmp (fun a b => (b.complexity : Int) - (a.complexity : Int))
    ((nodes.map (fun node =>
      let incoming := (edges.filter (fun e => e.target == node.id)).length
      let outgoing := (edges.filter (fun e => e.source == node.id)).length
      let complexity := incoming + outgoing +
        (if node.type == some "decision" then 2 else 0)
      { nodeId := node.id, label := node.data.bind (·.label), ntype := node.type,
        complexity := complexity, isComplex := complexity > 4 : ComplexNodeInfo })).filter
      (·.isComplex))

/-- `checkErrorHandling`. -/
def checkErrorHandling (nodes : List Node) (edges : List Edge) : Bool :=
  let hasErrorNodes := nodes.any (fun node =>
    (match node.data.bind (·.label) with
     | some l => strIncludes l.toLower "error"
     | none => false) ||
    (match node.data.bind (·.description) with
     | some d => strIncludes d.toLower "error"
     | none => false))
  let hasErrorEdges := edges.any (fun edge =>
    match edge.label with
    | some l => strIncludes l.toLower "error" || strIncludes l.toLower "fail"
    | none => false)
  hasErrorNodes || hasErrorEdges

/-- State of the `detectCircularDependencies` DFS. -/
structure CDState where
  cycles : List (List JsStr) := []
  visited : List JsStr := []
  stack : List JsStr := []
  deriving DecidableEq

/-- The `dfs` of `detectCircularDependencies`: each call receives its own
copy of the path; on re-encounter it records `path.slice(cycleStart)`. -/
def cdDfs (edges : List Edge) : Nat → CDState → JsStr → List JsStr → CDState
  | 0, st, _, _ => st
  | fuel + 1, st, nodeId, path =>
    if nodeId ∈ st.stack then
      { st with cycles := st.cycles ++ [path.drop (path.indexOf nodeId)] }
    else if nodeId ∈ st.visited then st
    else
      let st₁ : CDState :=
        { st with visited := st.visited ++ [nodeId], stack := st.stack ++ [nodeId] }
      let path' := path ++ [nodeId]
      let st₂ := (outgoingEdges edges nodeId).foldl
        (fun s e => cdDfs edges fuel s e.target path') st₁
      { st₂ with stack := st₂.stack.erase nodeId }

/-- `detectCircularDependencies` of RecommendationEngine. -/
def detectCircularDependencies (nodes : List Node) (edges : List Edge) :
    List (List JsStr) :=
  (nodes.foldl
    (fun st n =>
      if n.id ∈ st.visited then st
      else cdDfs edges (nodes.length + edges.length + 1) st n.id [])
    {}).cycles

/-- `generatePerformanceRecommendations`. -/
def generatePerformanceRecommendations (nodes : List Node) (edges : List Edge) :
    List Rec :=
  (if (nodes.filter (fun n => n.type == some "database")).length > 3 then
    [{ category := "performance", priority := "high",
       title := "Optimize Database Operations",
       description := "Multiple database operations detected. Consider connection pooling, caching, and query optimization.",
       impact := "high", effort := "medium",
       implementation :=
         { steps := ["Implement database connection pooling",
                     "Add caching layer (Redis/Memcached)",
                     "Optimize database queries",
                     "Consider read replicas for read-heavy operations"],
           estimatedTime := "1-2 weeks",
           technologies := ["Redis", "Connection pooling", "Query optimization"] },
       metricsInfo := some
         { expectedImprovement := "30-50% reduction in response time",
           measurableBy := ["Response time", "Database connection usage", "Cache hit ratio"] } }]
   else []) ++
  (if (nodes.filter (fun n => n.type == some "api-call")).length > 2 then
    [{ category := "performance", priority := "medium",
       title := "Implement API Caching and Batching",
       description := "Multiple API calls can cause performance issues. Consider caching and request batching.",
       impact := "medium", effort := "low",
       implementation :=
         { steps := ["Implement response caching",
                     "Batch multiple API calls where possible",
                     "Add request deduplication",
                     "Implement circuit breaker pattern"],
           estimatedTime := "3-5 days",
           technologies := ["HTTP caching", "Request batching", "Circuit breaker"] },
       metricsInfo := some
         { expectedImprovement := "20-40% reduction in API call time",
           measurableBy := ["API response time", "Number of API calls", "Cache hit ratio"] } }]
   else []) ++
  (if (identifyParallelProcessingOpportunities nodes edges).length > 0 then
    [{ category := "performance", priority := "medium",
       title := "Implement Parallel Processing",
       description := "Identified opportunities for parallel execution to improve performance.",
       impact := "high", effort := "medium",
       implementation :=
         { steps := ["Identify independent operations",
                     "Implement async/await patterns",
                     "Use worker threads for CPU-intensive tasks",
                     "Implement proper synchronization"],
           estimatedTime := "1 week",
           technologies := ["Worker threads", "Async/await", "Promise.all()"] },
       details := some (RecDetails.opportunities
         (identifyParallelProcessingOpportunities nodes edges)) }]
   else [])

/-- `generateStructuralRecommendations`. -/
def generateStructuralRecommendations (nodes : List Node) (edges : List Edge) :
    List Rec :=
  (if (identifyComplexNodes nodes edges).length > 0 then
    [{ category := "structure", priority := "high",
       title := "Break Down Complex Components",
       description := "Some components are overly complex and should be broken down into smaller parts.",
       impact := "high", effort := "high",
       implementation :=
         { steps := ["Identify single responsibility for each component",
                     "Extract sub-processes into separate modules",
                     "Create clear interfaces between components",
                     "Update documentation and tests"],
           estimatedTime := "2-3 weeks",
           technologies := ["Modular architecture", "Interface design"] },
       details := some (RecDetails.complexComponents (identifyComplexNodes nodes edges)) }]
   else []) ++
  (if ¬ checkErrorHandling nodes edges then
    [{ category := "structure", priority := "high",
       title := "Add Error Handling Paths",
       description := "The process lacks proper error handling. Add error paths and fallback mechanisms.",
       impact := "high", effort := "medium",
       implementation :=
         { steps := ["Identify potential failure points",
                     "Add try-catch blocks around critical operations",
                     "Implement fallback mechanisms",
                     "Add error logging and monitoring",
                     "Create error recovery procedures"],
           estimatedTime := "1 week",
           technologies := ["Error handling", "Logging", "Monitoring"] } }]
   else []) ++
  (if (detectCircularDependencies nodes edges).length > 0 then
    [{ category := "structure", priority := "high",
       title := "Resolve Circular Dependencies",
       description := "Circular dependencies can cause infinite loops and make the system unstable.",
       impact := "high", effort := "medium",
       implementation :=
         { steps := ["Analyze dependency cycles",
                     "Introduce dependency injection",
                     "Extract shared dependencies to separate modules",
                     "Refactor to eliminate cycles"],
           estimatedTime := "1-2 weeks",
           technologies := ["Dependency injection", "Modular design"] },
       details := some (RecDetails.circularDependencies
         (detectCircularDependencies nodes edges)) }]
   else [])

/-- `generateUsabilityRecommendations`. -/
def generateUsabilityRecommendations (nodes : List Node) (edges : List Edge) :
    List Rec :=
  let userNodes := nodes.filter (fun n =>
    n.type == some "user-action" || n.type == some "html-element")
  (if userNodes.length > 0 ∧
      ¬ userNodes.any (fun node =>
        (match node.data.bind (·.label) with
         | some l => strIncludes l.toLower "feedback"
         | none => false) ||
        (match node.data.bind (·.label) with
         | some l => strIncludes l.toLower "confirmation"
         | none => false)) then
    [{ category := "usability", priority := "medium",
       title := "Add User Feedback Mechanisms",
       description := "Users should receive feedback on their actions. Add confirmation messages and progress indicators.",
       impact := "medium", effort := "low",
       implementation :=
         { steps := ["Add success/error messages",
                     "Implement loading indicators",
                     "Add confirmation dialogs for critical actions",
                     "Include progress bars for long operations"],
           estimatedTime := "2-3 days",
           technologies := ["UI components", "Notifications", "Progress indicators"] } }]
   else []) ++
  (if userNodes.length > 0 then
    [{ category := "usability", priority := "medium",
       title := "Implement Accessibility Features",
       description := "Ensure the process is accessible to users with disabilities.",
       impact := "medium", effort := "medium",
       implementation :=
         { steps := ["Add ARIA labels and roles",
                     "Ensure keyboard navigation",
                     "Implement screen reader support",
                     "Add high contrast mode support",
                     "Test with accessibility tools"],
           estimatedTime := "1 week",
           technologies := ["ARIA", "Accessibility testing", "WAI guidelines"] } }]
   else []) ++
  (if (nodes.filter (fun n => n.type == some "html-element")).length > 0 then
    [{ category := "usability", priority := "medium",
       title := "Ensure Mobile Responsiveness",
       description := "Make sure the process works well on mobile devices.",
       impact := "medium", effort := "medium",
       implementation :=
         { steps := ["Implement responsive design",
                     "Test on various screen sizes",
                     "Optimize touch interactions",
                     "Consider mobile-first approach"],
           estimatedTime := "1 week",
           technologies := ["Responsive design", "CSS media queries", "Touch optimization"] } }]
   else [])

/-- `generateSecurityRecommendations`. -/
def generateSecurityRecommendations (nodes : List Node) (edges : List Edge) :
    List Rec :=
  let hasUserInput := nodes.any (fun n =>
    n.type == some "user-action" || n.type == some "html-element")
  let hasAuth := nodes.any (fun n =>
    n.type == some "external-service" ∧ n.data.bind (·.serviceType) == some "auth")
  (if hasUserInput ∧ ¬ hasAuth then
    [{ category := "security", priority := "high",
       title := "Implement User Authentication",
       description := "Processes involving user input should include proper authentication mechanisms.",
       impact := "high", effort := "medium",
       implementation :=
         { steps := ["Choose authentication strategy (JWT, OAuth, etc.)",
                     "Implement login/logout functionality",
                     "Add session management",
                     "Implement authorization checks",
                     "Add password security measures"],
           estimatedTime := "1-2 weeks",
           technologies := ["JWT", "OAuth 2.0", "Session management", "Password hashing"] } }]
   else []) ++
  (if (nodes.filter (fun n =>
      n.type == some "html-element" ∧ n.data.bind (·.elementType) == some "form")).length > 0 then
    [{ category := "security", priority := "high",
       title := "Implement Input Validation",
       description := "All user inputs must be validated to prevent injection attacks.",
       impact := "high", effort := "low",
       implementation :=
         { steps := ["Add client-side validation",
                     "Implement server-side validation",
                     "Sanitize all inputs",
                     "Use parameterized queries for database operations",
                     "Implement CSRF protection"],
           estimatedTime := "3-5 days",
           technologies := ["Input validation", "Sanitization", "CSRF tokens", "Parameterized queries"] } }]
   else []) ++
  (if (nodes.filter (fun n => n.type == some "api-call")).length > 0 then
    [{ category := "security", priority := "high",
       title := "Ensure Secure Communication",
       description := "All API communications should use HTTPS and proper encryption.",
       impact := "high", effort := "low",
       implementation :=
         { steps := ["Use HTTPS for all API calls",
                     "Implement proper SSL/TLS configuration",
                     "Add API key management",
                     "Implement request signing",
                     "Use secure headers"],
           estimatedTime := "2-3 days",
           technologies := ["HTTPS", "SSL/TLS", "API security", "Secure headers"] } }]
   else [])

/-- `generateMaintainabilityRecommendations`. -/
def generateMaintainabilityRecommendations (nodes : List Node) (edges : List Edge) :
    List Rec :=
  (if ((nodes.filter (fun node =>
      ¬ truthy (node.data.bind (·.description)) ∨
      (jsShow (node.data.bind (·.description))).length < 10)).length : ℚ) >
      (nodes.length : ℚ) * (0.3 : ℚ) then
    [{ category := "maintainability", priority := "medium",
       title := "Improve Documentation",
       description := "Many components lack proper documentation. Add detailed descriptions and comments.",
       impact := "medium", effort := "low",
       implementation :=
         { steps := ["Add descriptions to all components",
                     "Document data flows and dependencies",
                     "Create API documentation",
                     "Add inline comments for complex logic",
                     "Create user guides and technical documentation"],
           estimatedTime := "1 week",
           technologies := ["Documentation tools", "API docs", "Comments"] } }]
   else []) ++
  [{ category := "maintainability", priority := "high",
     title := "Implement Comprehensive Testing",
     description := "Add unit tests, integration tests, and end-to-end tests to ensure reliability.",
     impact := "high", effort := "high",
     implementation :=
       { steps := ["Create unit tests for individual components",
                   "Add integration tests for component interactions",
                   "Implement end-to-end tests for complete workflows",
                   "Set up continuous integration",
                   "Add code coverage monitoring"],
         estimatedTime := "2-3 weeks",
         technologies := ["Jest", "Cypress", "CI/CD", "Code coverage tools"] } },
   { category := "maintainability", priority := "medium",
     title := "Add Monitoring and Logging",
     description := "Implement comprehensive monitoring and logging for better observability.",
     impact := "medium", effort := "medium",
     implementation :=
       { steps := ["Add application logging",
                   "Implement error tracking",
                   "Set up performance monitoring",
                   "Create dashboards and alerts",
                   "Add health checks"],
         estimatedTime := "1 week",
         technologies := ["Logging frameworks", "Error tracking", "Monitoring tools", "Dashboards"] } }]

/-- `generateScalabilityRecommendations`. -/
def generateScalabilityRecommendations (nodes : List Node) (edges : List Edge) :
    List Rec :=
  (if (nodes.filter (fun n => n.type == some "database")).length > 0 then
    [{ category := "scalability", priority := "medium",
       title := "Implement Database Scalability",
       description := "Prepare database layer for increased load and data volume.",
       impact := "high", effort := "high",
       implementation :=
         { steps := ["Implement database sharding",
                     "Add read replicas",
                     "Optimize database indexes",
                     "Consider NoSQL for specific use cases",
                     "Implement database connection pooling"],
           estimatedTime := "2-4 weeks",
           technologies := ["Database sharding", "Read replicas", "Connection pooling", "NoSQL"] } }]
   else []) ++
  (if (nodes.filter (fun n =>
      n.type == some "api-call" ∨ n.type == some "database" ∨
      n.type == some "external-service")).length > 3 then
    [{ category := "scalability", priority := "medium",
       title := "Implement Horizontal Scaling",
       description := "Prepare the system for horizontal scaling with load balancing and microservices.",
       impact := "high", effort := "high",
       implementation :=
         { steps := ["Containerize applications",
                     "Implement load balancing",
                     "Add auto-scaling capabilities",
                     "Implement stateless design",
                     "Add service discovery"],
           estimatedTime := "3-6 weeks",
           technologies := ["Docker", "Kubernetes", "Load balancers", "Microservices"] } }]
   else []) ++
  [{ category := "scalability", priority := "medium",
     title := "Implement Caching Strategy",
     description := "Add caching at multiple levels to improve performance and reduce load.",
     impact := "medium", effort := "medium",
     implementation :=
       { steps := ["Implement application-level caching",
                   "Add database query caching",
                   "Implement CDN for static assets",
                   "Add browser caching headers",
                   "Consider distributed caching"],
         estimatedTime := "1-2 weeks",
         technologies := ["Redis", "Memcached", "CDN", "Browser caching"] } }]

/-- The `priorityOrder` rank table `{high: 3, medium: 2, low: 1}`;
an unknown string indexes to `undefined` (here `none`). -/
def rankOfPriority : String → Option Int
  | "high" => some 3
  | "medium" => some 2
  | "low" => some 1
  | _ => none

/-- The `impactOrder` rank table `{high: 3, medium: 2, low: 1}`. -/
def rankOfImpact : String → Option Int
  | "high" => some 3
  | "medium" => some 2
  | "low" => some 1
  | _ => none

/-- The `effortOrder` rank table `{low: 1, medium: 2, high: 3}`. -/
def rankOfEffort : String → Option Int
  | "low" => some 1
  | "medium" => some 2
  | "high" => some 3
  | _ => none

/-- The comparator of `prioritizeRecommendations`: priority difference,
then impact difference, then effort difference.  `none` stands for a JS
`NaN` comparator result (an unknown rank string is `undefined` and its
arithmetic is `NaN`); note that a `NaN` difference is `!== 0` and is
returned immediately, so later keys are not consulted. -/
def recCmpRaw (a b : Rec) : Option Int :=
  match rankOfPriority b.priority, rankOfPriority a.priority with
  | some pb, some pa =>
    if pb - pa ≠ 0 then some (pb - pa)
    else
      match rankOfImpact b.impact, rankOfImpact a.impact with
      | some ib, some ia =>
        if ib - ia ≠ 0 then some (ib - ia)
        else
          match rankOfEffort a.effort, rankOfEffort b.effort with
          | some ea, some eb => some (ea - eb)
          | _, _ => none
      | _, _ => none
  | _, _ => none

/-- The comparator as consumed by the sort: ECMAScript coerces a `NaN`
comparator result to `+0`. -/
def recCmp (a b : Rec) : Int := (recCmpRaw a b).getD 0

/-- `prioritizeRecommendations`: stable sort by the comparator. -/
def prioritizeRecommendations (recs : List Rec) : List Rec :=
  sortCmp recCmp recs

/-- The rule-gathering phase of `generateRecommendations`, in source
order. -/
def gatherRecommendations (nodes : List Node) (edges : List Edge)
    (analysisType : String) : List Rec :=
  (if analysisType = "all" ∨ analysisType = "performance" then
    generatePerformanceRecommendations nodes edges else []) ++
  (if analysisType = "all" ∨ analysisType = "structure" then
    generateStructuralRecommendations nodes edges else []) ++
  (if analysisType = "all" ∨ analysisType = "usability" then
    generateUsabilityRecommendations nodes edges else []) ++
  (if analysisType = "all" ∨ analysisType = "security" then
    generateSecurityRecommendations nodes edges else []) ++
  (if analysisType = "all" ∨ analysisType = "maintainability" then
    generateMaintainabilityRecommendations nodes edges else []) ++
  (if analysisType = "all" ∨ analysisType = "scalability" then
    generateScalabilityRecommendations nodes edges else [])

/-- `generateRecommendations` on a well-shaped input (both `nodes` and
`edges` present as arrays): gather, sort, then attach ids and 1-based
ranks. -/
def generateRecommendations (nodes : List Node) (edges : List Edge)
    (analysisType : String) : List RankedRec :=
  ((prioritizeRecommendations (gatherRecommendations nodes edges analysisType)).enum).map
    (fun p => { id := "rec-" ++ toString (p.1 + 1), payload := p.2, rank := p.1 + 1 })

end RecommendationEngine

namespace ProcessAnalyzer

/-- The message of the JS `TypeError` thrown by reading `.type` on
`undefined` (the exact wording is engine-specific). -/
def undefinedTypeMsg : String := "Cannot read properties of undefined (reading type)"

/-- The recursion of `findPathsBetweenNodes`.  Each recursive call receives
copies of the visited set and of the current path (`new Set(visited)`,
`[...currentPath]` in the source), so the embedding is directly
functional.  The visited set gains one element per productive call, which
bounds the recursion depth; the fuel passed by the wrapper exceeds that
bound. -/
def findPathsGo (edges : List Edge) (endId : JsStr) :
    Nat → JsStr → List JsStr → List JsStr → List (List JsStr)
  | 0, _, _, _ => []
  | fuel + 1, startId, visited, currentPath =>
    if startId ∈ visited then []
    else if startId = endId then [currentPath ++ [startId]]
    else
      let visited' := visited ++ [startId]
      let currentPath' := currentPath ++ [startId]
      (outgoingEdges edges startId).flatMap
        (fun e => findPathsGo edges endId fuel e.target visited' currentPath')

/-- `findPathsBetweenNodes`: all paths from `startId` to `endId` that do
not revisit a node. -/
def findPathsBetweenNodes (startId endId : JsStr) (nodes : List Node)
    (edges : List Edge) (visited : List JsStr := [])
    (currentPath : List JsStr := []) : List (List JsStr) :=
  findPathsGo edges endId (nodes.length + edges.length + 2) startId visited currentPath

/-- `getBaseProcessingTime`: fixed per-type base times, default 10. -/
def getBaseProcessingTime : JsStr → Nat
  | some "start" => 1
  | some "end" => 1
  | some "html-element" => 100
  | some "database" => 50
  | some "api-call" => 200
  | some "decision" => 5
  | some "user-action" => 1000
  | some "external-service" => 300
  | _ => 10

/-- `isHighComplexityNode` on an actual node (the source throws when the
argument is `undefined`; the caller models that case separately). -/
def isHighComplexityNode (n : Node) : Bool :=
  n.type == some "database" || n.type == some "api-call" ||
  n.type == some "external-service" || n.type == some "decision"

/-- `calculatePathComplexity`: sums 2 per high-complexity node and 1
otherwise along the path.  A path node id that matches no node makes
`nodes.find(...)` yield `undefined` and the subsequent `.type` read throws,
modelled as an error. -/
def calculatePathComplexity (path : List JsStr) (nodes : List Node)
    (edges : List Edge) : Except String Nat :=
  path.foldlM
    (fun acc nodeId =>
      match nodes.find? (fun n => n.id == nodeId) with
      | some n => .ok (acc + (if isHighComplexityNode n then 2 else 1))
      | none => .error undefinedTypeMsg)
    0

/-- `estimatePathDuration`: sums base times; a missing node or type falls
back to the default time (`node?.type || 'unknown'`). -/
def estimatePathDuration (path : List JsStr) (nodes : List Node) : Nat :=
  path.foldl
    (fun acc nodeId =>
      acc + getBaseProcessingTime
        (match nodes.find? (fun n => n.id == nodeId) with
         | some n => n.type
         | none => none))
    0

/-- One entry of the `paths` result of `findAllPaths`. -/
structure PathInfo where
  id : String
  nodes : List JsStr
  length : Nat
  complexity : Nat
  estimatedDuration : Nat
  deriving DecidableEq

/-- `findAllPaths`: all simple paths from every start node to every end
node, then decorated with id, length, complexity and duration. -/
def findAllPaths (nodes : List Node) (edges : List Edge) :
    Except String (List PathInfo) := do
  let startNodes := nodes.filter (fun n => n.type == some "start")
  let endNodes := nodes.filter (fun n => n.type == some "end")
  let paths := startNodes.flatMap (fun s =>
    endNodes.flatMap (fun en => findPathsBetweenNodes s.id en.id nodes edges))
  paths.enum.mapM (fun p => do
    let c ← calculatePathComplexity p.2 nodes edges
    pure ({ id := "path-" ++ toString p.1, nodes := p.2, length := p.2.length,
            complexity := c,
            estimatedDuration := estimatePathDuration p.2 nodes } : PathInfo))

/-- The critical-path object: the chosen path spread with the extra
properties. -/
structure CriticalPathInfo where
  path : PathInfo
  isCritical : Bool
  reason : String
  optimizationPriority : String
  deriving DecidableEq

/-- `findCriticalPath`: `null` on no paths, else the first path of maximal
complexity. -/
def findCriticalPath (paths : List PathInfo) : Option CriticalPathInfo :=
  match paths with
  | [] => none
  | first :: _ =>
    some { path := paths.foldl
             (fun best p => if p.complexity > best.complexity then p else best) first,
           isCritical := true, reason := "Highest complexity path",
           optimizationPriority := "high" }

/-- One bottleneck record (`btype` is the object's `type` property). -/
structure Bottleneck where
  nodeId : JsStr
  btype : String
  severity : String
  description : String
  recommendation : String
  deriving DecidableEq

/-- `identifyBottlenecks`. -/
def identifyBottlenecks (nodes : List Node) (edges : List Edge) : List Bottleneck :=
  nodes.flatMap (fun node =>
    let incomingCount := (edges.filter (fun e => e.target == node.id)).length
    (if incomingCount > 2 then
      [{ nodeId := node.id, btype := "convergence",
         severity := if incomingCount > 4 then "high" else "medium",
         description := toString incomingCount ++ " processes converge at this point",
         recommendation := "Consider parallel processing or load balancing" }]
     else []) ++
    (if isHighComplexityNode node then
      [{ nodeId := node.id, btype := "complexity", severity := "high",
         description := "High complexity operation",
         recommendation := "Consider breaking into smaller components" }]
     else []) ++
    (if node.type == some "external-service" || node.type == some "api-call" then
      [{ nodeId := node.id, btype := "external_dependency", severity := "medium",
         description := "External dependency may cause delays",
         recommendation := "Implement caching and error handling" }]
     else []))

/-- `tracePath`: follows single-outgoing chains; the visited set stops
loops. -/
def tracePath (edges : List Edge) : Nat → JsStr → List JsStr → List JsStr
  | 0, nodeId, _ => [nodeId]
  | fuel + 1, nodeId, visited =>
    if nodeId ∈ visited then [nodeId]
    else
      let visited' := visited ++ [nodeId]
      match outgoingEdges edges nodeId with
      | [e] => nodeId :: tracePath edges fuel e.target visited'
      | _ => [nodeId]

/-- `calculateParallelSpeedup`. -/
def calculateParallelSpeedup (parallelPaths : List (List JsStr)) : ℚ :=
  if parallelPaths.length ≤ 1 then 1
  else
    let longestPath := (parallelPaths.map (·.length)).foldl max 0
    let totalSequentialLength := (parallelPaths.map (·.length)).sum
    (jsRound (jsDiv (totalSequentialLength : ℚ) (longestPath : ℚ) * 10) : ℚ) / 10

/-- One parallel group of `findParallelProcesses`. -/
structure ParallelGroup where
  forkNode : JsStr
  paths : List (List JsStr)
  canOptimize : Bool
  estimatedSpeedup : ℚ
  deriving DecidableEq

/-- `findParallelProcesses`. -/
def findParallelProcesses (nodes : List Node) (edges : List Edge) :
    List ParallelGroup :=
  (nodes.filter (fun node => (outgoingEdges edges node.id).length > 1)).filterMap
    (fun forkNode =>
      let parallelPaths := (outgoingEdges edges forkNode.id).map
        (fun e => tracePath edges (edges.length + 2) e.target [])
      if parallelPaths.length > 1 then
        some { forkNode := forkNode.id, paths := parallelPaths,
               canOptimize := true,
               estimatedSpeedup := calculateParallelSpeedup parallelPaths }
      else none)

/-- The `dfs` of ProcessAnalyzer's `findCircularDependencies`, over
dependency records reduced to their `(source.id, target.id)` pairs.  Each
call receives a copy of the path and records `path.slice(cycleStart)`. -/
def depDfs (deps : List (JsStr × JsStr)) :
    Nat → RecommendationEngine.CDState → JsStr → List JsStr →
    RecommendationEngine.CDState
  | 0, st, _, _ => st
  | fuel + 1, st, nodeId, path =>
    if nodeId ∈ st.stack then
      { st with cycles := st.cycles ++ [path.drop (path.indexOf nodeId)] }
    else if nodeId ∈ st.visited then st
    else
      let st₁ : RecommendationEngine.CDState :=
        { st with visited := st.visited ++ [nodeId], stack := st.stack ++ [nodeId] }
      let path' := path ++ [nodeId]
      let st₂ := (deps.filter (fun d => d.1 == nodeId)).foldl
        (fun s d => depDfs deps fuel s d.2 path') st₁
      { st₂ with stack := st₂.stack.erase nodeId }

/-- The `allNodeIds` insertion-ordered set of `findCircularDependencies`:
every dependency's source then target. -/
def depNodeIds (deps : List (JsStr × JsStr)) : List JsStr :=
  deps.foldl
    (fun acc d =>
      let acc₁ := if d.1 ∈ acc then acc else acc ++ [d.1]
      if d.2 ∈ acc₁ then acc₁ else acc₁ ++ [d.2])
    []

/-- `findCircularDependencies` of ProcessAnalyzer. -/
def findCircularDependencies (deps : List (JsStr × JsStr)) : List (List JsStr) :=
  ((depNodeIds deps).foldl
    (fun st nodeId =>
      if nodeId ∈ st.visited then st
      else depDfs deps (2 * deps.length + 1) st nodeId [])
    {}).cycles

/-- `detectSequentialPattern`: `edges.length > 0 && edges.length === nodes.length - 1`. -/
def detectSequentialPattern (nodes : List Node) (edges : List Edge) : Bool :=
  edges.length > 0 ∧ (edges.length : Int) = (nodes.length : Int) - 1

/-- `detectBranchingPattern`. -/
def detectBranchingPattern (nodes : List Node) (edges : List Edge) : Bool :=
  nodes.any (fun node => (outgoingEdges edges node.id).length > 1)

/-- `detectLoopPattern`: circular dependencies over the edge list. -/
def detectLoopPattern (nodes : List Node) (edges : List Edge) : Bool :=
  (findCircularDependencies (edges.map (fun e => (e.source, e.target)))).length > 0

/-- `detectPipelinePattern`.  (For an empty node list the JS ratio is
`NaN` and the comparison is false, as is `jsDiv`'s `0 > 0.7`.) -/
def detectPipelinePattern (nodes : List Node) (edges : List Edge) : Bool :=
  let pipelineNodes := nodes.filter (fun node =>
    let incoming := (edges.filter (fun e => e.target == node.id)).length
    let outgoing := (outgoingEdges edges node.id).length
    (incoming = 1 ∧ outgoing = 1) ∨
    (node.type == some "start" ∧ outgoing = 1) ∨
    (node.type == some "end" ∧ incoming = 1))
  jsDiv (pipelineNodes.length : ℚ) (nodes.length : ℚ) > (0.7 : ℚ)

/-- The `patterns` object of `analyzeFlowPatterns`. -/
structure FlowPatterns where
  sequential : Bool
  branching : Bool
  loops : Bool
  pipeline : Bool
  deriving DecidableEq

/-- `analyzeFlowPatterns`. -/
def analyzeFlowPatterns (nodes : List Node) (edges : List Edge) : FlowPatterns :=
  { sequential := detectSequentialPattern nodes edges
    branching := detectBranchingPattern nodes edges
    loops := detectLoopPattern nodes edges
    pipeline := detectPipelinePattern nodes edges }

/-- ProcessAnalyzer's `calculateCyclomaticComplexity(edges, nodes)`:
`edges.length - nodes.length + 2 + decisions`. -/
def calculateCyclomaticComplexity (edges : List Edge) (nodes : List Node) : Int :=
  let decisions := (nodes.filter (fun n => n.type == some "decision")).length
  (edges.length : Int) - (nodes.length : Int) + 2 + decisions

/-- The `fan_in_out` record.  (For an empty node list the JS averages are
`NaN`; `jsDiv` yields 0 there; no claim depends on them.) -/
structure FanInOut where
  maxFanIn : Nat
  maxFanOut : Nat
  avgFanIn : ℚ
  avgFanOut : ℚ
  deriving DecidableEq

/-- `calculateFanInOut`. -/
def calculateFanInOut (nodes : List Node) (edges : List Edge) : FanInOut :=
  let fanIns := nodes.map (fun node => (edges.filter (fun e => e.target == node.id)).length)
  let fanOuts := nodes.map (fun node => (edges.filter (fun e => e.source == node.id)).length)
  { maxFanIn := fanIns.foldl max 0
    maxFanOut := fanOuts.foldl max 0
    avgFanIn := jsDiv (fanIns.sum : ℚ) (fanIns.length : ℚ)
    avgFanOut := jsDiv (fanOuts.sum : ℚ) (fanOuts.length : ℚ) }

/-- The depth recursion shared by ProcessAnalyzer's and
ComplexityAnalyzer's `calculateMaxDepth` (the two method bodies are
identical): each branch explores with its own copy of the visited set and
a dead end contributes its depth to the running maximum. -/
def depthDfs (edges : List Edge) : Nat → JsStr → Nat → List JsStr → Nat
  | 0, _, _, _ => 0
  | fuel + 1, nodeId, depth, visited =>
    if nodeId ∈ visited then 0
    else
      let visited' := visited ++ [nodeId]
      match outgoingEdges edges nodeId with
      | [] => depth
      | outs => outs.foldl
          (fun m e => max m (depthDfs edges fuel e.target (depth + 1) visited')) 0

/-- ProcessAnalyzer's `calculateMaxDepth`: starts only from nodes typed
`start`. -/
def calculateMaxDepth (nodes : List Node) (edges : List Edge) : Nat :=
  (nodes.filter (fun n => n.type == some "start")).foldl
    (fun m n => max m (depthDfs edges (edges.length + 2) n.id 0 [])) 0

/-- ProcessAnalyzer's `calculateMaxWidth`: the largest outgoing-edge count
of a fork point, 1 when there is none. -/
def calculateMaxWidth (nodes : List Node) (edges : List Edge) : Nat :=
  let forkPoints := nodes.filter (fun node => (outgoingEdges edges node.id).length > 1)
  if forkPoints.length = 0 then 1
  else (forkPoints.map (fun node => (outgoingEdges edges node.id).length)).foldl max 0

/-- ProcessAnalyzer's `calculateCoupling` (and `calculateCohesion`, whose
body is the same ratio): `edges.length / (nodes.length * (nodes.length - 1))`.
(JS yields `NaN`/`Infinity` for 0- or 1-node diagrams; `jsDiv` yields 0.) -/
def calculateCoupling (nodes : List Node) (edges : List Edge) : ℚ :=
  jsDiv (edges.length : ℚ) ((nodes.length : ℚ) * ((nodes.length : ℚ) - 1))

/-- ProcessAnalyzer's `calculateCohesion`. -/
def calculateCohesion (nodes : List Node) (edges : List Edge) : ℚ :=
  jsDiv (edges.length : ℚ) ((nodes.length : ℚ) * ((nodes.length : ℚ) - 1))

/-- The `metrics` record of `calculateFlowMetrics`. -/
structure FlowMetrics where
  cyclomaticComplexity : Int
  fanInOut : FanInOut
  depth : Nat
  width : Nat
  coupling : ℚ
  cohesion : ℚ
  deriving DecidableEq

/-- `calculateFlowMetrics`. -/
def calculateFlowMetrics (nodes : List Node) (edges : List Edge) : FlowMetrics :=
  { cyclomaticComplexity := calculateCyclomaticComplexity edges nodes
    fanInOut := calculateFanInOut nodes edges
    depth := calculateMaxDepth nodes edges
    width := calculateMaxWidth nodes edges
    coupling := calculateCoupling nodes edges
    cohesion := calculateCohesion nodes edges }

/-- `calculateBranchingComplexity`: `outgoing - 1` summed over forks. -/
def calculateBranchingComplexity (nodes : List Node) (edges : List Edge) : Nat :=
  nodes.foldl
    (fun c node =>
      let outs := (outgoingEdges edges node.id).length
      c + (if outs > 1 then outs - 1 else 0))
    0

/-- `calculateFlowComplexity`. -/
def calculateFlowComplexity (nodes : List Node) (edges : List Edge) : Int :=
  jsRound ((nodes.length : ℚ) + (edges.length : ℚ) * (0.5 : ℚ) +
    (calculateBranchingComplexity nodes edges : ℚ))

/-- `calculateFlowEfficiency`. -/
def calculateFlowEfficiency (nodes : List Node) (edges : List Edge)
    (paths : List PathInfo) : Int :=
  if paths.length = 0 then 0
  else
    let avgPathLength := jsDiv ((paths.map (·.length)).sum : ℚ) (paths.length : ℚ)
    jsRound (jsDiv avgPathLength (nodes.length : ℚ) * 100)

/-- The `flowAnalysis` record of the `analyzeFlow` result. -/
structure FlowAnalysisInfo where
  totalNodes : Nat
  totalConnections : Nat
  complexity : Int
  efficiency : Int
  deriving DecidableEq

/-- The structured result of `analyzeFlow`.  `metrics` is present exactly
when `includeMetrics` is set. -/
structure FlowResult where
  paths : List PathInfo
  criticalPath : Option CriticalPathInfo
  bottlenecks : List Bottleneck
  parallelProcesses : List ParallelGroup
  patterns : FlowPatterns
  metrics : Option FlowMetrics
  flowAnalysis : FlowAnalysisInfo
  deriving DecidableEq

/-- The `try`-block body of `analyzeFlow`, in source evaluation order.  The
only failure mode on a well-shaped input is `calculatePathComplexity`
reading `.type` of a node lookup that found nothing (dangling path node). -/
def analyzeFlowBody (nodes : List Node) (edges : List Edge)
    (includeMetrics analyzePaths : Bool) : Except String FlowResult := do
  let paths ← if analyzePaths then findAllPaths nodes edges else pure []
  pure { paths := paths
         criticalPath := findCriticalPath paths
         bottlenecks := identifyBottlenecks nodes edges
         parallelProcesses := findParallelProcesses nodes edges
         patterns := analyzeFlowPatterns nodes edges
         metrics := if includeMetrics then some (calculateFlowMetrics nodes edges) else none
         flowAnalysis :=
           { totalNodes := nodes.length
             totalConnections := edges.length
             complexity := calculateFlowComplexity nodes edges
             efficiency := calculateFlowEfficiency nodes edges paths } }

/-- `analyzeFlow`: the public operation.  Its `catch` wraps any internal
failure and re-throws it as a new `Flow analysis failed: <reason>` error,
which therefore escapes the operation. -/
def analyzeFlow (nodes : List Node) (edges : List Edge)
    (includeMetrics : Bool := true) (analyzePaths : Bool := true) :
    Except String FlowResult :=
  match analyzeFlowBody nodes edges includeMetrics analyzePaths with
  | .ok r => .ok r
  | .error m => .error ("Flow analysis failed: " ++ m)

end ProcessAnalyzer

namespace ComplexityAnalyzer

/-- `findStronglyConnectedComponents`: the source is "Simplified - returns
1 for connected graph" and returns the constant 1 unconditionally. -/
def findStronglyConnectedComponents (nodes : List Node) (edges : List Edge) : Nat := 1

/-- ComplexityAnalyzer's `calculateCyclomaticComplexity`:
`E - N + 2P + decisions` with `P` the (hard-coded) component count. -/
def calculateCyclomaticComplexity (nodes : List Node) (edges : List Edge) : Int :=
  let decisions := (nodes.filter (fun n => n.type == some "decision")).length
  (edges.length : Int) - (nodes.length : Int) +
    2 * (findStronglyConnectedComponents nodes edges : Int) + decisions

/-- `calculateBranchingFactor`: `Math.max(...outgoingCounts, 1)`. -/
def calculateBranchingFactor (nodes : List Node) (edges : List Edge) : Nat :=
  (nodes.map (fun node => (outgoingEdges edges node.id).length)).foldl max 1

/-- ComplexityAnalyzer's `calculateMaxDepth`: unlike ProcessAnalyzer's, the
start set also falls back to nodes with no incoming edge; the recursion is
the shared `depthDfs`. -/
def calculateMaxDepth (nodes : List Node) (edges : List Edge) : Nat :=
  (nodes.filter (fun n =>
    n.type == some "start" || ¬ edges.any (fun e => e.target == n.id))).foldl
    (fun m n => max m (ProcessAnalyzer.depthDfs edges (edges.length + 2) n.id 0 [])) 0

/-- Set `levels[k] = Math.max(levels[k] || 0, level)` on the insertion
ordered association list. -/
def updateLevel (levels : List (String × Nat)) (k : String) (level : Nat) :
    List (String × Nat) :=
  if levels.any (fun p => p.1 == k) then
    levels.map (fun p => if p.1 == k then (p.1, max p.2 level) else p)
  else levels ++ [(k, level)]

/-- The `assignLevel` recursion of `calculateNodeLevels`: the levels map is
shared, the visited set is copied per branch. -/
def assignLevel (edges : List Edge) :
    Nat → List (String × Nat) → JsStr → Nat → List JsStr → List (String × Nat)
  | 0, levels, _, _, _ => levels
  | fuel + 1, levels, nodeId, level, visited =>
    if nodeId ∈ visited then levels
    else
      let visited' := visited ++ [nodeId]
      let levels' := updateLevel levels (jsKey nodeId) level
      (outgoingEdges edges nodeId).foldl
        (fun ls e => assignLevel edges fuel ls e.target (level + 1) visited') levels'

/-- `calculateNodeLevels`. -/
def calculateNodeLevels (nodes : List Node) (edges : List Edge) :
    List (String × Nat) :=
  (nodes.filter (fun n => n.type == some "start")).foldl
    (fun ls n => assignLevel edges (edges.length + 2) ls n.id 0 []) []

/-- Set `counts[k] = v` on the association list. -/
def setCount (counts : List (Nat × Nat)) (k v : Nat) : List (Nat × Nat) :=
  if counts.any (fun p => p.1 == k) then
    counts.map (fun p => if p.1 == k then (p.1, v) else p)
  else counts ++ [(k, v)]

/-- ComplexityAnalyzer's `calculateMaxWidth`: the largest number of nodes
assigned the same level, at least 1. -/
def calculateMaxWidth (nodes : List Node) (edges : List Edge) : Nat :=
  (((calculateNodeLevels nodes edges).map (·.2)).foldl
    (fun acc v =>
      let newCount := ((acc.1.lookup v).getD 0) + 1
      (setCount acc.1 v newCount, max acc.2 newCount))
    (([] : List (Nat × Nat)), 1)).2

/-- The `countPathsBetween` recursion (equality is tested before the
visited set here). -/
def countPathsBetween (edges : List Edge) :
    Nat → JsStr → JsStr → List JsStr → Nat
  | 0, _, _, _ => 0
  | fuel + 1, startId, endId, visited =>
    if startId = endId then 1
    else if startId ∈ visited then 0
    else (outgoingEdges edges startId).foldl
      (fun acc e => acc + countPathsBetween edges fuel e.target endId (visited ++ [startId])) 0

/-- `calculatePathDiversity`: total start-to-end path count, capped at 10;
1 when there is no start or no end node. -/
def calculatePathDiversity (nodes : List Node) (edges : List Edge) : Nat :=
  let startNodes := nodes.filter (fun n => n.type == some "start")
  let endNodes := nodes.filter (fun n => n.type == some "end")
  if startNodes.length = 0 ∨ endNodes.length = 0 then 1
  else
    min
      (startNodes.foldl
        (fun acc s => acc + endNodes.foldl
          (fun acc2 en => acc2 + countPathsBetween edges (edges.length + 2) s.id en.id []) 0)
        0)
      10

/-- `assessLabelClarity`.  (For an empty node list the JS ratio is `NaN`;
`jsDiv` yields 0; no claim depends on it.) -/
def assessLabelClarity (nodes : List Node) : ℚ :=
  let clarityScore := nodes.foldl
    (fun acc node =>
      let label := jsShow (node.data.bind (·.label))
      let description := jsShow (node.data.bind (·.description))
      let labelScore : ℚ :=
        if label.length = 0 then 0
        else if label.length < 5 then 3
        else if label.length > 50 then 5
        else 8
      acc + labelScore + (if description.length > 0 then 2 else 0))
    0
  min (jsDiv clarityScore (nodes.length : ℚ)) 10

/-- `countComputationalNodes`. -/
def countComputationalNodes (nodes : List Node) : Nat :=
  (nodes.filter (fun n =>
    n.type == some "decision" || n.type == some "database" ||
    n.type == some "api-call" || n.type == some "external-service")).length

/-- `countIOOperations`. -/
def countIOOperations (nodes : List Node) : Nat :=
  (nodes.filter (fun n =>
    n.type == some "database" || n.type == some "html-element" ||
    n.type == some "user-action")).length

/-- `countNetworkCalls`. -/
def countNetworkCalls (nodes : List Node) : Nat :=
  (nodes.filter (fun n =>
    n.type == some "api-call" || n.type == some "external-service")).length

/-- `countDatabaseOperations`. -/
def countDatabaseOperations (nodes : List Node) : Nat :=
  (nodes.filter (fun n => n.type == some "database")).length

/-- `assessParallelizability`. -/
def assessParallelizability (nodes : List Node) (edges : List Edge) : ℚ :=
  let forkPoints := nodes.filter (fun node => (outgoingEdges edges node.id).length > 1)
  let joinPoints := nodes.filter (fun node =>
    (edges.filter (fun e => e.target == node.id)).length > 1)
  min (jsDiv ((forkPoints.length : ℚ) + (joinPoints.length : ℚ)) (nodes.length : ℚ) * 10) 10

/-- The `intensityMap` lookup `intensityMap[node.type] || 1`.  The map
entries for `start` and `end` are 0, but 0 is falsy in JS, so the `|| 1`
makes those node types contribute 1. -/
def intensityOf : JsStr → ℚ
  | some "database" => 3
  | some "api-call" => 2
  | some "external-service" => 3
  | some "html-element" => 1
  | some "user-action" => 1
  | some "decision" => 1
  | some "start" => 1
  | some "end" => 1
  | _ => 1

/-- `assessResourceIntensity`. -/
def assessResourceIntensity (nodes : List Node) : ℚ :=
  min (jsDiv (nodes.foldl (fun acc n => acc + intensityOf n.type) 0) (nodes.length : ℚ)) 10

/-- ComplexityAnalyzer's `calculateCoupling`. -/
def calculateCoupling (nodes : List Node) (edges : List Edge) : ℚ :=
  if nodes.length ≤ 1 then 0
  else
    min (jsDiv (edges.length : ℚ) ((nodes.length : ℚ) * ((nodes.length : ℚ) - 1)) * 10) 10

/-- The insertion-ordered type groups (`typeGroups` / `identifyClusters`):
node ids grouped by JS property key of the node type. -/
def typeGroups (nodes : List Node) : List (String × List JsStr) :=
  nodes.foldl
    (fun acc node =>
      let k := jsKey node.type
      if acc.any (fun p => p.1 == k) then
        acc.map (fun p => if p.1 == k then (p.1, p.2 ++ [node.id]) else p)
      else acc ++ [(k, [node.id])])
    []

/-- ComplexityAnalyzer's `calculateCohesion`. -/
def calculateCohesion (nodes : List Node) (edges : List Edge) : ℚ :=
  if nodes.length = 0 then 10
  else
    let folded := (typeGroups nodes).foldl
      (fun (acc : ℚ × Nat) g =>
        if g.2.length > 1 then
          let internalEdges := (edges.filter (fun e =>
            e.source ∈ g.2 ∧ e.target ∈ g.2)).length
          let maxInternalEdges : Nat := g.2.length * (g.2.length - 1)
          let cohesion : ℚ :=
            if maxInternalEdges > 0 then jsDiv (internalEdges : ℚ) (maxInternalEdges : ℚ)
            else 0
          (acc.1 + cohesion, acc.2 + 1)
        else acc)
      (0, 0)
    if folded.2 > 0 then jsDiv folded.1 (folded.2 : ℚ) * 10 else 5

/-- `assessChangeImpact`. -/
def assessChangeImpact (nodes : List Node) (edges : List Edge) : ℚ :=
  min (jsDiv (edges.length : ℚ) (nodes.length : ℚ) * 2) 10

/-- `assessTestability`. -/
def assessTestability (nodes : List Node) (edges : List Edge) : ℚ :=
  let decisions := (nodes.filter (fun n => n.type == some "decision")).length
  let external := (nodes.filter (fun n => n.type == some "external-service")).length
  max (10 - ((decisions : ℚ) * (0.5 : ℚ) + (external : ℚ) * (0.3 : ℚ))) 0

/-- `identifyClusters`: the group value lists. -/
def identifyClusters (nodes : List Node) (edges : List Edge) : List (List JsStr) :=
  (typeGroups nodes).map (·.2)

/-- `assessModularity`. -/
def assessModularity (nodes : List Node) (edges : List Edge) : ℚ :=
  min (((identifyClusters nodes edges).length : ℚ) * 2) 10

/-- `assessDocumentation`. -/
def assessDocumentation (nodes : List Node) : ℚ :=
  let documented := (nodes.filter (fun n =>
    truthy (n.data.bind (·.description)) ∧
    (jsShow (n.data.bind (·.description))).length > 10)).length
  jsDiv (documented : ℚ) (nodes.length : ℚ) * 10

/-- `interpretStructuralComplexity` (called on the unrounded score). -/
def interpretStructuralComplexity (score : ℚ) : String :=
  if score ≤ 5 then "Simple structure with clear flow"
  else if score ≤ 15 then "Moderate structure complexity"
  else if score ≤ 25 then "Complex structure requiring attention"
  else "Highly complex structure needing simplification"

/-- `interpretCognitiveComplexity`. -/
def interpretCognitiveComplexity (score : ℚ) : String :=
  if score ≤ 5 then "Easy to understand and follow"
  else if score ≤ 15 then "Moderate cognitive load"
  else if score ≤ 25 then "Requires significant mental effort"
  else "Very difficult to understand without documentation"

/-- `interpretComputationalComplexity`. -/
def interpretComputationalComplexity (score : ℚ) : String :=
  if score ≤ 5 then "Low computational requirements"
  else if score ≤ 15 then "Moderate resource usage"
  else if score ≤ 25 then "High resource requirements"
  else "Very resource intensive"

/-- `interpretMaintenanceComplexity`. -/
def interpretMaintenanceComplexity (score : ℚ) : String :=
  if score ≤ 5 then "Easy to maintain and modify"
  else if score ≤ 15 then "Moderate maintenance effort"
  else if score ≤ 25 then "Difficult to maintain"
  else "Very difficult to maintain and modify"

/-- The `metrics` of `analyzeStructuralComplexity`. -/
structure StructuralMetrics where
  nodeCount : Nat
  edgeCount : Nat
  cyclomaticComplexity : Int
  branchingFactor : Nat
  depth : Nat
  width : Nat
  deriving DecidableEq

/-- The result of `analyzeStructuralComplexity`. -/
structure ScoredStructural where
  score : ℚ
  metrics : StructuralMetrics
  interpretation : String
  deriving DecidableEq

/-- `analyzeStructuralComplexity`: the weighted linear score, rounded to
one decimal; the interpretation is computed from the unrounded score. -/
def analyzeStructuralComplexity (nodes : List Node) (edges : List Edge) :
    ScoredStructural :=
  let metrics : StructuralMetrics :=
    { nodeCount := nodes.length
      edgeCount := edges.length
      cyclomaticComplexity := calculateCyclomaticComplexity nodes edges
      branchingFactor := calculateBranchingFactor nodes edges
      depth := calculateMaxDepth nodes edges
      width := calculateMaxWidth nodes edges }
  let score : ℚ :=
    (metrics.nodeCount : ℚ) * (0.1 : ℚ) +
    (metrics.edgeCount : ℚ) * (0.15 : ℚ) +
    (metrics.cyclomaticComplexity : ℚ) * 2 +
    (metrics.branchingFactor : ℚ) * (1.5 : ℚ) +
    (metrics.depth : ℚ) * (0.5 : ℚ) +
    (metrics.width : ℚ) * (0.3 : ℚ)
  { score := (jsRound (score * 10) : ℚ) / 10
    metrics := metrics
    interpretation := interpretStructuralComplexity score }

/-- The `metrics` of `analyzeCognitiveComplexity`. -/
structure CognitiveMetrics where
  decisionPoints : Nat
  externalDependencies : Nat
  userInteractions : Nat
  dataOperations : Nat
  pathDiversity : Nat
  labelClarity : ℚ
  deriving DecidableEq

/-- The result of `analyzeCognitiveComplexity`. -/
structure ScoredCognitive where
  score : ℚ
  metrics : CognitiveMetrics
  interpretation : String
  deriving DecidableEq

/-- `analyzeCognitiveComplexity`. -/
def analyzeCognitiveComplexity (nodes : List Node) (edges : List Edge) :
    ScoredCognitive :=
  let metrics : CognitiveMetrics :=
    { decisionPoints := (nodes.filter (fun n => n.type == some "decision")).length
      externalDependencies := (nodes.filter (fun n =>
        n.type == some "external-service" || n.type == some "api-call")).length
      userInteractions := (nodes.filter (fun n =>
        n.type == some "user-action" || n.type == some "html-element")).length
      dataOperations := (nodes.filter (fun n => n.type == some "database")).length
      pathDiversity := calculatePathDiversity nodes edges
      labelClarity := assessLabelClarity nodes }
  let score : ℚ :=
    (metrics.decisionPoints : ℚ) * 3 +
    (metrics.externalDependencies : ℚ) * 2 +
    (metrics.userInteractions : ℚ) * (1.5 : ℚ) +
    (metrics.dataOperations : ℚ) * 1 +
    (metrics.pathDiversity : ℚ) * 2 +
    (10 - metrics.labelClarity) * (0.5 : ℚ)
  { score := (jsRound (score * 10) : ℚ) / 10
    metrics := metrics
    interpretation := interpretCognitiveComplexity score }

/-- The `metrics` of `analyzeComputationalComplexity`. -/
structure ComputationalMetrics where
  computationalNodes : Nat
  ioOperations : Nat
  networkCalls : Nat
  databaseOperations : Nat
  parallelizability : ℚ
  resourceIntensity : ℚ
  deriving DecidableEq

/-- The result of `analyzeComputationalComplexity`. -/
structure ScoredComputational where
  score : ℚ
  metrics : ComputationalMetrics
  interpretation : String
  deriving DecidableEq

/-- `analyzeComputationalComplexity`. -/
def analyzeComputationalComplexity (nodes : List Node) (edges : List Edge) :
    ScoredComputational :=
  let metrics : ComputationalMetrics :=
    { computationalNodes := countComputationalNodes nodes
      ioOperations := countIOOperations nodes
      networkCalls := countNetworkCalls nodes
      databaseOperations := countDatabaseOperations nodes
      parallelizability := assessParallelizability nodes edges
      resourceIntensity := assessResourceIntensity nodes }
  let score : ℚ :=
    (metrics.computationalNodes : ℚ) * (1.5 : ℚ) +
    (metrics.ioOperations : ℚ) * 2 +
    (metrics.networkCalls : ℚ) * 3 +
    (metrics.databaseOperations : ℚ) * (2.5 : ℚ) +
    (10 - metrics.parallelizability) * (0.5 : ℚ) +
    metrics.resourceIntensity * 1
  { score := (jsRound (score * 10) : ℚ) / 10
    metrics := metrics
    interpretation := interpretComputationalComplexity score }

/-- The `metrics` of `analyzeMaintenanceComplexity`. -/
structure MaintenanceMetrics where
  coupling : ℚ
  cohesion : ℚ
  changeImpact : ℚ
  testability : ℚ
  modularity : ℚ
  documentation : ℚ
  deriving DecidableEq

/-- The result of `analyzeMaintenanceComplexity`. -/
structure ScoredMaintenance where
  score : ℚ
  metrics : MaintenanceMetrics
  interpretation : String
  deriving DecidableEq

/-- `analyzeMaintenanceComplexity`. -/
def analyzeMaintenanceComplexity (nodes : List Node) (edges : List Edge) :
    ScoredMaintenance :=
  let metrics : MaintenanceMetrics :=
    { coupling := calculateCoupling nodes edges
      cohesion := calculateCohesion nodes edges
      changeImpact := assessChangeImpact nodes edges
      testability := assessTestability nodes edges
      modularity := assessModularity nodes edges
      documentation := assessDocumentation nodes }
  let score : ℚ :=
    metrics.coupling * 2 +
    (10 - metrics.cohesion) * (1.5 : ℚ) +
    metrics.changeImpact * (1.5 : ℚ) +
    (10 - metrics.testability) * 1 +
    (10 - metrics.modularity) * 1 +
    (10 - metrics.documentation) * (0.5 : ℚ)
  { score := (jsRound (score * 10) : ℚ) / 10
    metrics := metrics
    interpretation := interpretMaintenanceComplexity score }

/-- `calculateOverallScore`: the 0.3/0.3/0.2/0.2 weighted sum of the four
(rounded) sub-scores, rounded. -/
def calculateOverallScore (structural cognitive computational maintenance : ℚ) : Int :=
  jsRound (structural * (0.3 : ℚ) + cognitive * (0.3 : ℚ) +
    computational * (0.2 : ℚ) + maintenance * (0.2 : ℚ))

/-- `determineComplexityLevel`. -/
def determineComplexityLevel (score : Int) : String :=
  if score ≤ 10 then "Very Low"
  else if score ≤ 20 then "Low"
  else if score ≤ 35 then "Medium"
  else if score ≤ 50 then "High"
  else "Very High"

/-- The result of `analyzeNodeDistribution`. -/
structure NodeDistribution where
  typeCount : Nat
  distribution : List (String × Nat)
  dominantType : String
  deriving DecidableEq

/-- `analyzeNodeDistribution`.  The `dominantType` reduce has no initial
value, so on an empty node list JS throws a `TypeError`, modelled as an
error. -/
def analyzeNodeDistribution (nodes : List Node) : Except String NodeDistribution :=
  let distribution := nodes.foldl
    (fun acc node =>
      let k := jsKey node.type
      if acc.any (fun p => p.1 == k) then
        acc.map (fun p => if p.1 == k then (p.1, p.2 + 1) else p)
      else acc ++ [(k, 1)])
    ([] : List (String × Nat))
  match distribution with
  | [] => .error "Reduce of empty array with no initial value"
  | first :: rest =>
    .ok { typeCount := distribution.length
          distribution := distribution
          dominantType := (rest.foldl (fun a b => if a.2 > b.2 then a else b) first).1 }

/-- The result of `analyzeConnectionPatterns`. -/
structure ConnectionPatterns where
  fanOut : Nat
  fanIn : Nat
  sequential : Nat
  parallel : Nat
  deriving DecidableEq

/-- `analyzeConnectionPatterns`. -/
def analyzeConnectionPatterns (nodes : List Node) (edges : List Edge) :
    ConnectionPatterns :=
  nodes.foldl
    (fun acc node =>
      let outgoing := (outgoingEdges edges node.id).length
      let incoming := (edges.filter (fun e => e.target == node.id)).length
      { fanOut := acc.fanOut + (if outgoing > 1 then 1 else 0)
        fanIn := acc.fanIn + (if incoming > 1 then 1 else 0)
        sequential := acc.sequential + (if outgoing = 1 ∧ incoming = 1 then 1 else 0)
        parallel := acc.parallel + (if outgoing > 1 ∨ incoming > 1 then 1 else 0) })
    { fanOut := 0, fanIn := 0, sequential := 0, parallel := 0 }

/-- One entry of `identifyComplexityHotspots` (`ntype` is the node's
`type`). -/
structure Hotspot where
  nodeId : JsStr
  label : JsStr
  ntype : JsStr
  complexity : Nat
  isHotspot : Bool
  deriving DecidableEq

/-- `identifyComplexityHotspots`: hotspot-scored nodes, sorted by
descending complexity. -/
def identifyComplexityHotspots (nodes : List Node) (edges : List Edge) :
    List Hotspot :=
  sortCmp (fun a b => (b.complexity : Int) - (a.complexity : Int))
    ((nodes.map (fun node =>
      let incoming := (edges.filter (fun e => e.target == node.id)).length
      let outgoing := (outgoingEdges edges node.id).length
      let complexity := incoming + outgoing +
        (if node.type == some "decision" then 2 else 0)
      { nodeId := node.id, label := node.data.bind (·.label), ntype := node.type,
        complexity := complexity, isHotspot := complexity > 3 : Hotspot })).filter
      (·.isHotspot))

/-- `findSequentialChains`: "Simplified implementation", constant `[]`. -/
def findSequentialChains (nodes : List Node) (edges : List Edge) :
    List (List JsStr) := []

/-- `findRedundantPaths`: "Simplified implementation", constant `[]`. -/
def findRedundantPaths (nodes : List Node) (edges : List Edge) :
    List (List JsStr) := []

/-- One simplification opportunity (`otype` is the object's `type`;
`payload` its `nodes`/`paths` list). -/
structure SimplificationOp where
  otype : String
  description : String
  payload : List (List JsStr)
  deriving DecidableEq

/-- `identifySimplificationOpportunities`. -/
def identifySimplificationOpportunities (nodes : List Node) (edges : List Edge) :
    List SimplificationOp :=
  (if (findSequentialChains nodes edges).length > 0 then
    [{ otype := "sequential_simplification",
       description := "Sequential node chains could be consolidated",
       payload := findSequentialChains nodes edges }]
   else []) ++
  (if (findRedundantPaths nodes edges).length > 0 then
    [{ otype := "path_simplification",
       description := "Redundant paths could be consolidated",
       payload := findRedundantPaths nodes edges }]
   else [])

/-- The `factors` record of `analyze`. -/
structure ComplexityFactors where
  nodeDistribution : NodeDistribution
  connectionPatterns : ConnectionPatterns
  complexityHotspots : List Hotspot
  simplificationOpportunities : List SimplificationOp
  deriving DecidableEq

/-- `analyzeComplexityFactors`: the `nodeDistribution` property is computed
first and its failure aborts the object construction. -/
def analyzeComplexityFactors (nodes : List Node) (edges : List Edge) :
    Except String ComplexityFactors := do
  let nodeDistribution ← analyzeNodeDistribution nodes
  pure { nodeDistribution := nodeDistribution
         connectionPatterns := analyzeConnectionPatterns nodes edges
         complexityHotspots := identifyComplexityHotspots nodes edges
         simplificationOpportunities := identifySimplificationOpportunities nodes edges }

/-- One complexity recommendation. -/
structure CARecommendation where
  priority : String
  category : String
  title : String
  description : String
  expectedImpact : String
  deriving DecidableEq

/-- `generateComplexityRecommendations`. -/
def generateComplexityRecommendations (score : Int) (factors : ComplexityFactors) :
    List CARecommendation :=
  (if score > 50 then
    [{ priority := "high", category := "architecture",
       title := "Consider breaking down the process",
       description := "The process is very complex. Consider splitting it into smaller, manageable sub-processes.",
       expectedImpact := "significant" }]
   else []) ++
  (if score > 35 then
    [{ priority := "medium", category := "documentation",
       title := "Enhance documentation",
       description := "Add detailed descriptions and comments to improve understanding.",
       expectedImpact := "moderate" }]
   else []) ++
  (if factors.complexityHotspots.length > 0 then
    [{ priority := "medium", category := "refactoring",
       title := "Address complexity hotspots",
       description := "Focus on simplifying the most complex nodes and connections.",
       expectedImpact := "moderate" }]
   else [])

/-- `getNodeBaseComplexity` of ComplexityAnalyzer (external-service is 2.5
here; another module uses 3). -/
def getNodeBaseComplexity : JsStr → ℚ
  | some "start" => 0.5
  | some "end" => 0.5
  | some "html-element" => 1
  | some "database" => 2
  | some "api-call" => 2.5
  | some "decision" => 3
  | some "user-action" => 1.5
  | some "external-service" => 2.5
  | _ => 1

/-- `getNodeDataComplexity`. -/
def getNodeDataComplexity : Option NodeData → ℚ
  | none => 0
  | some d =>
    (if truthy d.condition then 1 else 0) +
    (if truthy d.operation then (0.5 : ℚ) else 0) +
    (if truthy d.method then (0.5 : ℚ) else 0) +
    (match d.fields with
     | some fs => (fs.length : ℚ) * (0.1 : ℚ)
     | none => 0)

/-- `calculateNodeComplexity`. -/
def calculateNodeComplexity (nodes : List Node) : ℚ :=
  nodes.foldl
    (fun acc node => acc + getNodeBaseComplexity node.type + getNodeDataComplexity node.data)
    0

/-- `calculateEdgeComplexity`. -/
def calculateEdgeComplexity (edges : List Edge) : ℚ :=
  edges.foldl
    (fun acc edge =>
      acc + 1 + (if truthy edge.label then (0.5 : ℚ) else 0) +
      (if edge.animated then (0.2 : ℚ) else 0))
    0

/-- State of ComplexityAnalyzer's cycle-counting `detectCycles`. -/
structure CAState where
  visited : List JsStr := []
  stack : List JsStr := []
  cycles : Nat := 0
  deriving DecidableEq

/-- The `hasCycle` recursion of ComplexityAnalyzer's `detectCycles`.  A
found cycle returns `true` immediately out of the `for` loop, skipping the
recursion-stack cleanup. -/
def caHasCycle (edges : List Edge) : Nat → CAState → JsStr → Bool × CAState
  | 0, st, _ => (false, st)
  | fuel + 1, st, nodeId =>
    if nodeId ∈ st.stack then (true, { st with cycles := st.cycles + 1 })
    else if nodeId ∈ st.visited then (false, st)
    else
      let st₁ : CAState :=
        { st with visited := st.visited ++ [nodeId], stack := st.stack ++ [nodeId] }
      let looped := (outgoingEdges edges nodeId).foldl
        (fun acc e => if acc.1 then acc else caHasCycle edges fuel acc.2 e.target)
        (false, st₁)
      if looped.1 then (true, looped.2)
      else (false, { looped.2 with stack := looped.2.stack.erase nodeId })

/-- ComplexityAnalyzer's `detectCycles`: the number of back-edge
detections. -/
def detectCycles (nodes : List Node) (edges : List Edge) : Nat :=
  (nodes.foldl
    (fun st n =>
      if n.id ∈ st.visited then st
      else (caHasCycle edges (nodes.length + edges.length + 1) st n.id).2)
    {}).cycles

/-- `countBranches`. -/
def countBranches (nodes : List Node) (edges : List Edge) : Nat :=
  nodes.foldl
    (fun c node => c + ((outgoingEdges edges node.id).length - 1))
    0

/-- ComplexityAnalyzer's `calculateFlowComplexity`:
`cycles * 3 + branches * 1.5`. -/
def calculateFlowComplexity (nodes : List Node) (edges : List Edge) : ℚ :=
  (detectCycles nodes edges : ℚ) * 3 + (countBranches nodes edges : ℚ) * (1.5 : ℚ)

/-- `calculateInteractionComplexity`. -/
def calculateInteractionComplexity (nodes : List Node) (edges : List Edge) : ℚ :=
  let userNodes := (nodes.filter (fun n =>
    n.type == some "user-action" || n.type == some "html-element")).length
  let externalNodes := (nodes.filter (fun n =>
    n.type == some "external-service" || n.type == some "api-call")).length
  (userNodes : ℚ) * (1.5 : ℚ) + (externalNodes : ℚ) * 2

/-- The `metrics` record of the `analyze` result. -/
structure AnalyzeMetrics where
  structural : ScoredStructural
  cognitive : ScoredCognitive
  computational : ScoredComputational
  maintenance : ScoredMaintenance
  deriving DecidableEq

/-- The `breakdown` record of the `analyze` result. -/
structure Breakdown where
  nodeComplexity : ℚ
  edgeComplexity : ℚ
  flowComplexity : ℚ
  interactionComplexity : ℚ
  deriving DecidableEq

/-- The structured result of `analyze`. -/
structure AnalyzeResult where
  overallScore : Int
  level : String
  metrics : AnalyzeMetrics
  factors : ComplexityFactors
  recommendations : List CARecommendation
  breakdown : Breakdown
  deriving DecidableEq

/-- The `try`-block body of `analyze`, in source evaluation order.  On a
well-shaped input its only failure mode is the empty-reduce of
`analyzeNodeDistribution` (an empty node list). -/
def analyzeBody (nodes : List Node) (edges : List Edge) :
    Except String AnalyzeResult := do
  let structural := analyzeStructuralComplexity nodes edges
  let cognitive := analyzeCognitiveComplexity nodes edges
  let computational := analyzeComputationalComplexity nodes edges
  let maintenance := analyzeMaintenanceComplexity nodes edges
  let overallScore := calculateOverallScore structural.score cognitive.score
    computational.score maintenance.score
  let level := determineComplexityLevel overallScore
  let factors ← analyzeComplexityFactors nodes edges
  let recommendations := generateComplexityRecommendations overallScore factors
  pure { overallScore := overallScore
         level := level
         metrics := { structural := structural, cognitive := cognitive,
                      computational := computational, maintenance := maintenance }
         factors := factors
         recommendations := recommendations
         breakdown :=
           { nodeComplexity := calculateNodeComplexity nodes
             edgeComplexity := calculateEdgeComplexity edges
             flowComplexity := calculateFlowComplexity nodes edges
             interactionComplexity := calculateInteractionComplexity nodes edges } }

/-- `analyze`: the public operation.  Its `catch` wraps any internal
failure and re-throws it as `Complexity analysis failed: <reason>`. -/
def analyze (nodes : List Node) (edges : List Edge) : Except String AnalyzeResult :=
  match analyzeBody nodes edges with
  | .ok r => .ok r
  | .error m => .error ("Complexity analysis failed: " ++ m)

end ComplexityAnalyzer

/-! Semantic notions used to state the claims. -/

/-- One forward step along an edge of the diagram. -/
def EdgeStep (edges : List Edge) (a b : JsStr) : Prop :=
  ∃ e ∈ edges, e.source = a ∧ e.target = b

/-- Forward reachability: the reflexive-transitive closure of `EdgeStep`. -/
def Reaches (edges : List Edge) : JsStr → JsStr → Prop :=
  Relation.ReflTransGen (EdgeStep edges)

/-- `p` is a node-simple path from `s` to `t`: nonempty, starts at `s`,
ends at `t`, consecutive entries are joined by edges, and no node
repeats. -/
def IsSimplePathFrom (edges : List Edge) (s t : JsStr) (p : List JsStr) : Prop :=
  p.head? = some s ∧ p.getLast? = some t ∧ p.Chain' (EdgeStep edges) ∧ p.Nodup

/-- Modelled from the spec: the claim's "number of connected components of
the graph" (the code hard-codes this quantity to 1).  Vertices are the
diagram's node ids; an edge connects its source and target regardless of
direction; the count is the number of classes of node ids under undirected
reachability. -/
def specAdjacent (edges : List Edge) (a b : JsStr) : Bool :=
  edges.any (fun e => (e.source == a && e.target == b) ||
    (e.source == b && e.target == a))

/-- Modelled from the spec: one expansion step of undirected reachability
over the diagram's node ids. -/
def specGrow (nodes : List Node) (edges : List Edge) (acc : List JsStr) : List JsStr :=
  acc ++ (nodes.map (·.id)).filter
    (fun b => b ∉ acc ∧ acc.any (fun c => specAdjacent edges c b))

/-- Modelled from the spec: the node ids undirectedly reachable from `a`. -/
def specUndirectedReach (nodes : List Node) (edges : List Edge) (a : JsStr) : List JsStr :=
  (specGrow nodes edges)^[nodes.length] [a]

/-- Modelled from the spec: the number of connected components of the
diagram graph. -/
def specConnectedComponentCount (nodes : List Node) (edges : List Edge) : Nat :=
  ((nodes.map (·.id)).dedup.foldl
    (fun (acc : Nat × List JsStr) i =>
      if acc.2.any (fun seen => i ∈ specUndirectedReach nodes edges seen) then
        (acc.1, acc.2 ++ [i])
      else (acc.1 + 1, acc.2 ++ [i]))
    (0, [])).1

/-! Exception-behaviour and frame wrappers of the public operations. -/

namespace DiagramValidator

/-- `validateDiagram` as an exception-typed operation: the body is total on
the modelled domain and the surrounding `try/catch` recovers any remaining
failure into a structured result, so the operation always returns
normally. -/
def validateDiagramOp (v : Diagram) : Except String ValidationResult :=
  .ok (validateDiagram v)

/-- State-passing form of `validateDiagram`: every write in the source
targets a locally allocated object (the findings arrays, the traversal
sets, the result object), never the caller's diagram, so the translated
operation returns the input diagram unchanged alongside its result. -/
def validateDiagramRun (v : Diagram) : ValidationResult × Diagram :=
  (validateDiagram v, v)

end DiagramValidator

namespace RecommendationEngine

/-- State-passing form of `generateRecommendations`: the source writes only
into the locally created recommendation array (including its in-place
sort), never into the caller's nodes or edges. -/
def generateRecommendationsRun (nodes : List Node) (edges : List Edge)
    (analysisType : String) :
    List RankedRec × (List Node × List Edge) :=
  (generateRecommendations nodes edges analysisType, (nodes, edges))

/-- The priority rank of a recommendation, defaulting the JS `undefined` to
0 (only used on valid recommendations, whose rank is 1..3). -/
def pRank (r : Rec) : Int := (rankOfPriority r.priority).getD 0

/-- The impact rank of a recommendation. -/
def iRank (r : Rec) : Int := (rankOfImpact r.impact).getD 0

/-- The effort rank of a recommendation. -/
def eRank (r : Rec) : Int := (rankOfEffort r.effort).getD 0

/-- A recommendation whose priority, impact and effort are all drawn from
the rank tables (every generated recommendation is). -/
def validRec (r : Rec) : Prop :=
  (rankOfPriority r.priority).isSome = true ∧
  (rankOfImpact r.impact).isSome = true ∧
  (rankOfEffort r.effort).isSome = true

instance : DecidablePred validRec := fun r => by unfold validRec; infer_instance

/-- The claim's ordering: `a` may precede `b` when `a` has higher priority,
or equal priority and higher impact, or equal priority and impact and no
larger effort (rank tables `{high:3, medium:2, low:1}`, effort inverted). -/
def recBefore (a b : Rec) : Prop :=
  pRank a > pRank b ∨
  (pRank a = pRank b ∧
    (iRank a > iRank b ∨ (iRank a = iRank b ∧ eRank a ≤ eRank b)))

/-- A single integer key that realizes `recBefore` lexicographically for
valid recommendations: smaller key means earlier. -/
def recKey (r : Rec) : Int := (3 - pRank r) * 100 + (3 - iRank r) * 10 + eRank r

end RecommendationEngine

namespace ComplexityAnalyzer

/-- State-passing form of `analyze`: the source writes only into locally
created metric and factor objects, never into the caller's nodes or
edges (this holds on both the normal and the wrapped-error outcome). -/
def analyzeRun (nodes : List Node) (edges : List Edge) :
    Except String AnalyzeResult × (List Node × List Edge) :=
  (analyze nodes edges, (nodes, edges))

end ComplexityAnalyzer

/-! Concrete fixtures used by the claims. -/

/-- A test node with the given id and type. -/
def sampleNode (i t : String) : Node :=
  { id := some i, type := some t, position := some (0, 0), data := none }

/-- A test edge with the given id, source and target. -/
def sampleEdge (i s t : String) : Edge :=
  { id := some i, source := some s, target := some t }

/-- A diagram with an id, no name, and an empty nodes array. -/
def emptyNodesNoName : Diagram :=
  { id := some "d1", name := none, nodes := some [], edges := some [] }

/-- The chain diagram start -> a -> b -> end. -/
def chainNodes : List Node :=
  [sampleNode "start" "start", sampleNode "a" "user-action",
   sampleNode "b" "user-action", sampleNode "end" "end"]

/-- The edges of the chain diagram. -/
def chainEdges : List Edge :=
  [sampleEdge "e1" "start" "a", sampleEdge "e2" "a" "b", sampleEdge "e3" "b" "end"]

/-- A diagram with no `start`-typed node whose single node has no incoming
edge. -/
def noStartNodes : List Node := [sampleNode "a" "decision"]

/-- The diamond graph a -> b, a -> c, b -> d, c -> d. -/
def diamondNodes : List Node :=
  [sampleNode "a" "start", sampleNode "b" "user-action",
   sampleNode "c" "user-action", sampleNode "d" "end"]

/-- The edges of the diamond graph. -/
def diamondEdges : List Edge :=
  [sampleEdge "e1" "a" "b", sampleEdge "e2" "a" "c",
   sampleEdge "e3" "b" "d", sampleEdge "e4" "c" "d"]

/-- The 3-cycle a -> b -> c -> a. -/
def cycleNodes : List Node :=
  [sampleNode "a" "start", sampleNode "b" "decision", sampleNode "c" "end"]

/-- The edges of the 3-cycle. -/
def cycleEdges : List Edge :=
  [sampleEdge "e1" "a" "b", sampleEdge "e2" "b" "c", sampleEdge "e3" "c" "a"]

/-- A well-shaped diagram whose edges dangle through the missing node `x`:
s -> x and x -> e with only `s` and `e` present. -/
def danglingNodes : List Node := [sampleNode "s" "start", sampleNode "e" "end"]

/-- The dangling edges s -> x -> e. -/
def danglingEdges : List Edge := [sampleEdge "e1" "s" "x", sampleEdge "e2" "x" "e"]

/-- Two typed nodes with no edges: a 2-component diagram. -/
def twoIslandNodes : List Node := [sampleNode "a" "start", sampleNode "b" "end"]

/-! Correctness of the `findReachableNodes` depth-first marking. -/

section ReachabilityLemmas

variable {edges : List Edge}

theorem mem_outgoingEdges {x : JsStr} {e : Edge} :
    e ∈ outgoingEdges edges x ↔ e ∈ edges ∧ e.source = x := by
  simp [outgoingEdges]

theorem traverse_subset :
    ∀ (fuel : Nat) (x : JsStr) (reach : List JsStr),
      reach ⊆ DiagramValidator.traverse edges fuel reach x := by
  intro fuel
  induction fuel with
  | zero => intro x reach; simp [DiagramValidator.traverse]
  | succ fuel ih =>
    intro x reach
    rw [DiagramValidator.traverse]
    split
    · exact fun _ h => h
    · have hfold : ∀ (l : List Edge) (r : List JsStr),
          r ⊆ l.foldl (fun r e => DiagramValidator.traverse edges fuel r e.target) r := by
        intro l
        induction l with
        | nil => intro r; simp
        | cons e l ihl =>
          intro r
          simp only [List.foldl_cons]
          exact (ih e.target r).trans (ihl _)
      exact (List.subset_append_left reach [x]).trans (hfold _ _)

theorem traverse_sound :
    ∀ (fuel : Nat) (x : JsStr) (reach : List JsStr) (y : JsStr),
      y ∈ DiagramValidator.traverse edges fuel reach x →
      y ∈ reach ∨ Reaches edges x y := by
  intro fuel
  induction fuel with
  | zero => intro x reach y hy; simp [DiagramValidator.traverse] at hy; exact Or.inl hy
  | succ fuel ih =>
    intro x reach y hy
    rw [DiagramValidator.traverse] at hy
    split at hy
    · exact Or.inl hy
    · have hfold : ∀ (l : List Edge), (∀ e ∈ l, e ∈ edges ∧ e.source = x) →
          ∀ (r : List JsStr), (∀ z ∈ r, z ∈ reach ∨ Reaches edges x z) →
          ∀ z ∈ l.foldl (fun r e => DiagramValidator.traverse edges fuel r e.target) r,
            z ∈ reach ∨ Reaches edges x z := by
        intro l
        induction l with
        | nil => intro _ r hr z hz; exact hr z hz
        | cons e l ihl =>
          intro hl r hr z hz
          simp only [List.foldl_cons] at hz
          refine ihl (fun e' he' => hl e' (List.mem_cons_of_mem _ he')) _ ?_ z hz
          intro w hw
          rcases ih e.target r w hw with hw' | hw'
          · exact hr w hw'
          · obtain ⟨he, hsrc⟩ := hl e (List.mem_cons_self _ _)
            exact Or.inr (Relation.ReflTransGen.head ⟨e, he, hsrc, rfl⟩ hw')
      refine hfold _ (fun e he => mem_outgoingEdges.mp he) _ ?_ y hy
      intro z hz
      rcases List.mem_append.mp hz with hz' | hz'
      · exact Or.inl hz'
      · simp at hz'
        subst hz'
        exact Or.inr Relation.ReflTransGen.refl

theorem traverse_spec (C : Finset JsStr)
    (hT : ∀ e ∈ edges, e.target ∈ C) :
    ∀ (fuel : Nat) (x : JsStr) (reach : List JsStr),
      x ∈ C → (C \ reach.toFinset).card < fuel →
      x ∈ DiagramValidator.traverse edges fuel reach x ∧
      (∀ y ∈ DiagramValidator.traverse edges fuel reach x, y ∉ reach →
        ∀ e ∈ edges, e.source = y →
          e.target ∈ DiagramValidator.traverse edges fuel reach x) := by
  intro fuel
  induction fuel with
  | zero => intro x reach _ hcard; omega
  | succ fuel ih =>
    intro x reach hxC hcard
    by_cases hx : x ∈ reach
    · rw [DiagramValidator.traverse, if_pos hx]
      exact ⟨hx, fun y hy hyn => absurd hy hyn⟩
    · rw [DiagramValidator.traverse, if_neg hx]
      have hstep : ∀ r : List JsStr, (reach ++ [x]) ⊆ r →
          (C \ r.toFinset).card < fuel := by
        intro r hr
        have hsub : (reach ++ [x]).toFinset ⊆ r.toFinset := by
          intro z hz
          rw [List.mem_toFinset] at hz ⊢
          exact hr hz
        have h1 : (C \ r.toFinset).card ≤ (C \ (reach ++ [x]).toFinset).card :=
          Finset.card_le_card (Finset.sdiff_subset_sdiff (le_refl C) hsub)
        have h2 : C \ (reach ++ [x]).toFinset = (C \ reach.toFinset).erase x := by
          ext z
          simp only [Finset.mem_sdiff, Finset.mem_erase, List.mem_toFinset,
            List.mem_append, List.mem_singleton]
          tauto
        have h3 : x ∈ C \ reach.toFinset := by
          rw [Finset.mem_sdiff, List.mem_toFinset]
          exact ⟨hxC, hx⟩
        have h4 := Finset.card_erase_of_mem h3
        have h5 : 0 < (C \ reach.toFinset).card := Finset.card_pos.mpr ⟨x, h3⟩
        rw [h2] at h1
        omega
      -- Invariant of the fold over the outgoing edges.
      have hfold : ∀ (l : List Edge), (∀ e ∈ l, e ∈ edges) →
          ∀ r : List JsStr, (reach ++ [x]) ⊆ r →
          (∀ y ∈ r, y ∉ reach ++ [x] → ∀ e ∈ edges, e.source = y → e.target ∈ r) →
          let R := l.foldl (fun r e => DiagramValidator.traverse edges fuel r e.target) r
          r ⊆ R ∧ (∀ e ∈ l, e.target ∈ R) ∧
          (∀ y ∈ R, y ∉ reach ++ [x] → ∀ e ∈ edges, e.source = y → e.target ∈ R) := by
        intro l
        induction l with
        | nil => intro _ r hr hP; exact ⟨fun _ h => h, by simp, hP⟩
        | cons e l ihl =>
          intro hl r hr hP
          simp only [List.foldl_cons]
          have heC : e.target ∈ C := hT e (hl e (List.mem_cons_self _ _))
          have hcall := ih e.target r heC (hstep r hr)
          have hsub : r ⊆ DiagramValidator.traverse edges fuel r e.target :=
            traverse_subset fuel e.target r
          have hP' : ∀ y ∈ DiagramValidator.traverse edges fuel r e.target,
              y ∉ reach ++ [x] → ∀ e' ∈ edges, e'.source = y →
              e'.target ∈ DiagramValidator.traverse edges fuel r e.target := by
            intro y hy hyn e' he' hsrc
            by_cases hyr : y ∈ r
            · exact hsub (hP y hyr hyn e' he' hsrc)
            · exact hcall.2 y hy hyr e' he' hsrc
          have hrec := ihl (fun e' he' => hl e' (List.mem_cons_of_mem _ he'))
            (DiagramValidator.traverse edges fuel r e.target)
            (hr.trans hsub) hP'
          refine ⟨hsub.trans hrec.1, ?_, hrec.2.2⟩
          intro e' he'
          rcases List.mem_cons.mp he' with rfl | he''
          · exact hrec.1 hcall.1
          · exact hrec.2.1 e' he''
      have hstart : (reach ++ [x]) ⊆ reach ++ [x] := fun _ h => h
      have hP0 : ∀ y ∈ reach ++ [x], y ∉ reach ++ [x] →
          ∀ e ∈ edges, e.source = y → e.target ∈ reach ++ [x] :=
        fun y hy hyn => absurd hy hyn
      have hmain := hfold (outgoingEdges edges x)
        (fun e he => (mem_outgoingEdges.mp he).1) (reach ++ [x]) hstart hP0
      refine ⟨hmain.1 (by simp), ?_⟩
      intro y hy hyn e he hsrc
      by_cases hyx : y = x
      · subst hyx
        exact hmain.2.1 e (mem_outgoingEdges.mpr ⟨he, hsrc⟩)
      · refine hmain.2.2 y hy ?_ e he hsrc
        simp only [List.mem_append, List.mem_singleton]
        push_neg
        exact ⟨hyn, hyx⟩

theorem findReachableNodes_spec (nodes : List Node) (edges : List Edge) (y : JsStr) :
    y ∈ DiagramValidator.findReachableNodes nodes edges ↔
    ∃ n ∈ nodes, n.type = some "start" ∧ Reaches edges n.id y := by
  classical
  set starts := nodes.filter (fun n => n.type == some "start") with hstarts
  set fuel := nodes.length + edges.length + 1 with hfuel
  set C : Finset JsStr :=
    (starts.map (·.id)).toFinset ∪ (edges.map (·.target)).toFinset with hC
  have hstartmem : ∀ n, n ∈ starts ↔ n ∈ nodes ∧ n.type = some "start" := by
    intro n
    simp [hstarts]
  have hT : ∀ e ∈ edges, e.target ∈ C := by
    intro e he
    rw [hC]
    refine Finset.mem_union_right _ ?_
    rw [List.mem_toFinset]
    exact List.mem_map_of_mem _ he
  have hidC : ∀ n ∈ starts, n.id ∈ C := by
    intro n hn
    rw [hC]
    refine Finset.mem_union_left _ ?_
    rw [List.mem_toFinset]
    exact List.mem_map_of_mem _ hn
  have hCard : ∀ r : List JsStr, (C \ r.toFinset).card < fuel := by
    intro r
    have h1 : (C \ r.toFinset).card ≤ C.card :=
      Finset.card_le_card (Finset.sdiff_subset)
    have h2 : C.card ≤ (starts.map (·.id)).toFinset.card +
        (edges.map (·.target)).toFinset.card := Finset.card_union_le _ _
    have h3 : (starts.map (·.id)).toFinset.card ≤ starts.length := by
      have := List.toFinset_card_le (starts.map (·.id))
      simpa using this
    have h4 : (edges.map (·.target)).toFinset.card ≤ edges.length := by
      have := List.toFinset_card_le (edges.map (·.target))
      simpa using this
    have h5 : starts.length ≤ nodes.length := List.length_filter_le _ _
    omega
  have hunfold : DiagramValidator.findReachableNodes nodes edges =
      starts.foldl (fun r n => DiagramValidator.traverse edges fuel r n.id) [] := rfl
  constructor
  · -- soundness
    intro hy
    have hsound : ∀ (l : List Node), (∀ n ∈ l, n ∈ nodes ∧ n.type = some "start") →
        ∀ r : List JsStr,
          (∀ z ∈ r, ∃ n ∈ nodes, n.type = some "start" ∧ Reaches edges n.id z) →
        ∀ z ∈ l.foldl (fun r n => DiagramValidator.traverse edges fuel r n.id) r,
          ∃ n ∈ nodes, n.type = some "start" ∧ Reaches edges n.id z := by
      intro l
      induction l with
      | nil => intro _ r hr z hz; exact hr z hz
      | cons n l ihl =>
        intro hl r hr z hz
        simp only [List.foldl_cons] at hz
        refine ihl (fun n' hn' => hl n' (List.mem_cons_of_mem _ hn')) _ ?_ z hz
        intro w hw
        rcases traverse_sound fuel n.id r w hw with hw' | hw'
        · exact hr w hw'
        · obtain ⟨hn, htype⟩ := hl n (List.mem_cons_self _ _)
          exact ⟨n, hn, htype, hw'⟩
    rw [hunfold] at hy
    exact hsound starts (fun n hn => (hstartmem n).mp hn) [] (by simp) y hy
  · -- completeness
    rintro ⟨n, hn, htype, hreach⟩
    have hcomp : ∀ (l : List Node), (∀ m ∈ l, m.id ∈ C) →
        ∀ r : List JsStr, (∀ z ∈ r, ∀ e ∈ edges, e.source = z → e.target ∈ r) →
        (∀ m ∈ l, m.id ∈
          l.foldl (fun r m => DiagramValidator.traverse edges fuel r m.id) r) ∧
        (∀ z ∈ l.foldl (fun r m => DiagramValidator.traverse edges fuel r m.id) r,
          ∀ e ∈ edges, e.source = z → e.target ∈
            l.foldl (fun r m => DiagramValidator.traverse edges fuel r m.id) r) ∧
        r ⊆ l.foldl (fun r m => DiagramValidator.traverse edges fuel r m.id) r := by
      intro l
      induction l with
      | nil => intro _ r hr; exact ⟨by simp, hr, fun _ h => h⟩
      | cons m l ihl =>
        intro hl r hr
        simp only [List.foldl_cons]
        have hspec := traverse_spec C hT fuel m.id r
          (hl m (List.mem_cons_self _ _)) (hCard r)
        have hsub : r ⊆ DiagramValidator.traverse edges fuel r m.id :=
          traverse_subset fuel m.id r
        have hclosed : ∀ z ∈ DiagramValidator.traverse edges fuel r m.id,
            ∀ e ∈ edges, e.source = z →
            e.target ∈ DiagramValidator.traverse edges fuel r m.id := by
          intro z hz e he hsrc
          by_cases hzr : z ∈ r
          · exact hsub (hr z hzr e he hsrc)
          · exact hspec.2 z hz hzr e he hsrc
        have hrec := ihl (fun m' hm' => hl m' (List.mem_cons_of_mem _ hm'))
          (DiagramValidator.traverse edges fuel r m.id) hclosed
        refine ⟨?_, hrec.2.1, hsub.trans hrec.2.2⟩
        intro m' hm'
        rcases List.mem_cons.mp hm' with rfl | hm''
        · exact hrec.2.2 hspec.1
        · exact hrec.1 m' hm''
    have hfacts := hcomp starts hidC [] (by simp)
    have hnin : n ∈ starts := (hstartmem n).mpr ⟨hn, htype⟩
    have hnid : n.id ∈ DiagramValidator.findReachableNodes nodes edges := by
      rw [hunfold]; exact hfacts.1 n hnin
    have hclosed := hfacts.2.1
    rw [hunfold]
    clear hfacts
    induction hreach with
    | refl => exact hnid
    | tail _ hstep ihr =>
      obtain ⟨e, he, hsrc, htgt⟩ := hstep
      subst htgt
      exact hclosed _ ihr e he hsrc

end ReachabilityLemmas

/-! Correctness of `findPathsBetweenNodes`: it enumerates exactly the
node-simple edge paths between its endpoints. -/

section PathEnumerationLemmas

theorem eq_singleton_of_head_getLast {α : Type} {q : List α} {a : α}
    (h1 : q.head? = some a) (h2 : q.getLast? = some a) (h3 : q.Nodup) :
    q = [a] := by
  cases q with
  | nil => simp at h1
  | cons b q' =>
    have hba : b = a := by simpa using h1
    cases q' with
    | nil => simp [hba]
    | cons c q'' =>
      exfalso
      rw [List.getLast?_cons_cons] at h2
      have hmem : a ∈ c :: q'' := List.mem_of_mem_getLast? h2
      simp only [List.nodup_cons] at h3
      exact h3.1 (hba ▸ hmem)

theorem findPathsGo_spec {edges : List Edge} {t : JsStr} (C : Finset JsStr)
    (hT : ∀ e ∈ edges, e.target ∈ C) :
    ∀ (fuel : Nat) (s : JsStr) (visited curr p : List JsStr),
      s ∈ C → (C \ visited.toFinset).card < fuel →
      (p ∈ ProcessAnalyzer.findPathsGo edges t fuel s visited curr ↔
        ∃ q, p = curr ++ q ∧ q.head? = some s ∧ q.getLast? = some t ∧
          q.Chain' (EdgeStep edges) ∧ q.Nodup ∧ ∀ y ∈ q, y ∉ visited) := by
  intro fuel
  induction fuel with
  | zero => intro s visited curr p _ hcard; omega
  | succ fuel ih =>
    intro s visited curr p hsC hcard
    by_cases hsv : s ∈ visited
    · rw [ProcessAnalyzer.findPathsGo, if_pos hsv]
      simp only [List.not_mem_nil, false_iff, not_exists]
      rintro q ⟨_, hhead, _, _, _, havoid⟩
      exact havoid s (by cases q <;> simp_all) hsv
    · by_cases hst : s = t
      · rw [ProcessAnalyzer.findPathsGo, if_neg hsv, if_pos hst]
        subst hst
        simp only [List.mem_singleton]
        constructor
        · rintro rfl
          exact ⟨[s], rfl, rfl, rfl, List.chain'_singleton _, List.nodup_singleton _,
            by simpa using hsv⟩
        · rintro ⟨q, rfl, hhead, hlast, _, hnodup, _⟩
          rw [eq_singleton_of_head_getLast hhead hlast hnodup]
      · rw [ProcessAnalyzer.findPathsGo, if_neg hsv, if_neg hst]
        have hcard' : (C \ (visited ++ [s]).toFinset).card < fuel := by
          have h2 : C \ (visited ++ [s]).toFinset = (C \ visited.toFinset).erase s := by
            ext z
            simp only [Finset.mem_sdiff, Finset.mem_erase, List.mem_toFinset,
              List.mem_append, List.mem_singleton]
            tauto
          have h3 : s ∈ C \ visited.toFinset := by
            rw [Finset.mem_sdiff, List.mem_toFinset]
            exact ⟨hsC, hsv⟩
          have h4 := Finset.card_erase_of_mem h3
          have h5 : 0 < (C \ visited.toFinset).card := Finset.card_pos.mpr ⟨s, h3⟩
          rw [h2]
          omega
        rw [List.mem_flatMap]
        constructor
        · rintro ⟨e, he, hp⟩
          obtain ⟨heE, hsrc⟩ := mem_outgoingEdges.mp he
          rw [ih e.target (visited ++ [s]) (curr ++ [s]) p (hT e heE) hcard'] at hp
          obtain ⟨q', rfl, hhead, hlast, hchain, hnodup, havoid⟩ := hp
          have hq'ne : q' ≠ [] := by cases q' <;> simp_all
          have hsq' : s ∉ q' := fun h => by simpa using (havoid s h)
          refine ⟨s :: q', by simp, rfl, ?_, ?_, ?_, ?_⟩
          · cases q' with
            | nil => exact absurd rfl hq'ne
            | cons c q'' => rw [List.getLast?_cons_cons]; exact hlast
          · rw [List.chain'_cons']
            refine ⟨?_, hchain⟩
            intro h hh
            rw [hhead] at hh
            cases hh
            exact ⟨e, heE, hsrc, rfl⟩
          · simp only [List.nodup_cons]
            exact ⟨hsq', hnodup⟩
          · intro y hy
            rcases List.mem_cons.mp hy with rfl | hy'
            · exact hsv
            · intro hyv
              exact (havoid y hy') (List.mem_append_left _ hyv)
        · rintro ⟨q, rfl, hhead, hlast, hchain, hnodup, havoid⟩
          cases q with
          | nil => simp at hhead
          | cons a q' =>
            have has : a = s := by simpa using hhead
            cases q' with
            | nil =>
              simp only [List.getLast?_singleton, Option.some.injEq] at hlast
              exact absurd (has ▸ hlast) hst
            | cons b q'' =>
              rw [List.chain'_cons'] at hchain
              obtain ⟨hstep, hchain'⟩ := hchain
              obtain ⟨e, heE, hsrc, htgt⟩ := hstep b (by simp)
              rw [has] at hsrc
              refine ⟨e, mem_outgoingEdges.mpr ⟨heE, hsrc⟩, ?_⟩
              rw [ih e.target (visited ++ [s]) (curr ++ [s]) _ (hT e heE) hcard']
              rw [List.nodup_cons] at hnodup
              rw [List.getLast?_cons_cons] at hlast
              refine ⟨b :: q'', by simp [has], by simp [htgt], hlast, hchain',
                hnodup.2, ?_⟩
              intro y hy
              simp only [List.mem_append, List.mem_singleton]
              push_neg
              refine ⟨fun h => havoid y (List.mem_cons_of_mem _ hy) h, ?_⟩
              rintro rfl
              exact hnodup.1 (has ▸ hy)

theorem findPathsBetweenNodes_spec (s t : JsStr) (nodes : List Node)
    (edges : List Edge) (p : List JsStr) :
    p ∈ ProcessAnalyzer.findPathsBetweenNodes s t nodes edges ↔
      IsSimplePathFrom edges s t p := by
  classical
  set C : Finset JsStr := insert s (edges.map (·.target)).toFinset with hC
  have hT : ∀ e ∈ edges, e.target ∈ C := by
    intro e he
    rw [hC]
    refine Finset.mem_insert_of_mem ?_
    rw [List.mem_toFinset]
    exact List.mem_map_of_mem _ he
  have hsC : s ∈ C := Finset.mem_insert_self _ _
  have hcard : (C \ ([] : List JsStr).toFinset).card <
      nodes.length + edges.length + 2 := by
    have h1 : (C \ ([] : List JsStr).toFinset).card ≤ C.card :=
      Finset.card_le_card (Finset.sdiff_subset)
    have h2 : C.card ≤ (edges.map (·.target)).toFinset.card + 1 :=
      Finset.card_insert_le _ _
    have h3 : (edges.map (·.target)).toFinset.card ≤ edges.length := by
      have := List.toFinset_card_le (edges.map (·.target))
      simpa using this
    omega
  rw [ProcessAnalyzer.findPathsBetweenNodes,
    findPathsGo_spec C hT (nodes.length + edges.length + 2) s [] [] p hsC hcard]
  unfold IsSimplePathFrom
  constructor
  · rintro ⟨q, rfl, h1, h2, h3, h4, _⟩
    exact ⟨by simpa using h1, by simpa using h2, by simpa using h3, by simpa using h4⟩
  · rintro ⟨h1, h2, h3, h4⟩
    exact ⟨p, by simp, h1, h2, h3, h4, by simp⟩

end PathEnumerationLemmas

/-! The stable comparator sort: permutation, sortedness and stability for a
comparator that agrees with an integer key on the elements at hand. -/

section StableSortLemmas

variable {α : Type} (cmp : α → α → Int)

theorem mem_insertCmp {x y : α} :
    ∀ {l : List α}, y ∈ insertCmp cmp x l ↔ y = x ∨ y ∈ l := by
  intro l
  induction l with
  | nil => simp [insertCmp]
  | cons z l ih =>
    rw [insertCmp]
    split
    · simp only [List.mem_cons, ih]
      tauto
    · simp only [List.mem_cons]

theorem insertCmp_perm (x : α) :
    ∀ (l : List α), List.Perm (insertCmp cmp x l) (x :: l) := by
  intro l
  induction l with
  | nil => simp [insertCmp]
  | cons z l ih =>
    rw [insertCmp]
    split
    · exact (ih.cons z).trans (List.Perm.swap x z l)
    · exact List.Perm.refl _

theorem sortCmp_append_singleton (x : α) (l : List α) :
    sortCmp cmp (l ++ [x]) = insertCmp cmp x (sortCmp cmp l) := by
  simp [sortCmp, List.foldl_append]

theorem sortCmp_perm : ∀ (l : List α), List.Perm (sortCmp cmp l) l := by
  intro l
  induction l using List.reverseRecOn with
  | nil => simp [sortCmp]
  | append_singleton l x ih =>
    rw [sortCmp_append_singleton]
    exact ((insertCmp_perm cmp x (sortCmp cmp l)).trans (ih.cons x)).trans
      (List.perm_append_singleton x l).symm

theorem mem_sortCmp {y : α} {l : List α} : y ∈ sortCmp cmp l ↔ y ∈ l :=
  (sortCmp_perm cmp l).mem_iff

variable (key : α → Int) (P : α → Prop)

theorem insertCmp_sorted
    (hkey : ∀ a b, P a → P b → (cmp a b ≤ 0 ↔ key a ≤ key b))
    (x : α) (hx : P x) :
    ∀ (l : List α), (∀ y ∈ l, P y) →
      l.Pairwise (fun a b => key a ≤ key b) →
      (insertCmp cmp x l).Pairwise (fun a b => key a ≤ key b) := by
  intro l
  induction l with
  | nil => intro _ _; simp [insertCmp]
  | cons z l ih =>
    intro hP hsorted
    rw [List.pairwise_cons] at hsorted
    have hPz : P z := hP z (List.mem_cons_self _ _)
    have hPl : ∀ y ∈ l, P y := fun y hy => hP y (List.mem_cons_of_mem _ hy)
    rw [insertCmp]
    split
    · rw [List.pairwise_cons]
      refine ⟨?_, ih hPl hsorted.2⟩
      intro y hy
      rcases (mem_insertCmp cmp).mp hy with rfl | hy'
      · exact (hkey z y hPz hx).mp (by assumption)
      · exact hsorted.1 y hy'
    · rw [List.pairwise_cons]
      constructor
      · intro y hy
        have hzx : ¬ key z ≤ key x := fun h =>
          (by assumption : ¬ cmp z x ≤ 0) ((hkey z x hPz hx).mpr h)
        rcases List.mem_cons.mp hy with rfl | hy'
        · omega
        · have := hsorted.1 y hy'
          omega
      · exact List.pairwise_cons.mpr hsorted

theorem sortCmp_sorted
    (hkey : ∀ a b, P a → P b → (cmp a b ≤ 0 ↔ key a ≤ key b)) :
    ∀ (l : List α), (∀ y ∈ l, P y) →
      (sortCmp cmp l).Pairwise (fun a b => key a ≤ key b) := by
  intro l
  induction l using List.reverseRecOn with
  | nil => intro _; simp [sortCmp]
  | append_singleton l x ih =>
    intro hP
    rw [sortCmp_append_singleton]
    refine insertCmp_sorted cmp key P hkey x
      (hP x (List.mem_append_right _ (List.mem_singleton_self _))) _ ?_
      (ih (fun y hy => hP y (List.mem_append_left _ hy)))
    intro y hy
    exact hP y (List.mem_append_left _ ((mem_sortCmp cmp).mp hy))

theorem filter_insertCmp_neg (q : α → Bool) (x : α) (hx : q x = false) :
    ∀ (l : List α), (insertCmp cmp x l).filter q = l.filter q := by
  intro l
  induction l with
  | nil => simp [insertCmp, hx]
  | cons z l ih =>
    rw [insertCmp]
    split
    · rw [List.filter_cons, List.filter_cons, ih]
    · rw [List.filter_cons, hx]
      simp

theorem filter_insertCmp_pos
    (hkey : ∀ a b, P a → P b → (cmp a b ≤ 0 ↔ key a ≤ key b))
    (q : α → Bool) (x : α) (hx : q x = true)
    (hq : ∀ a, q a = true → key a = key x) (hxP : P x) :
    ∀ (l : List α), (∀ y ∈ l, P y) →
      l.Pairwise (fun a b => key a ≤ key b) →
      (insertCmp cmp x l).filter q = l.filter q ++ [x] := by
  intro l
  induction l with
  | nil => intro _ _; simp [insertCmp, hx]
  | cons z l ih =>
    intro hP hsorted
    rw [List.pairwise_cons] at hsorted
    have hPz : P z := hP z (List.mem_cons_self _ _)
    have hPl : ∀ y ∈ l, P y := fun y hy => hP y (List.mem_cons_of_mem _ hy)
    rw [insertCmp]
    split
    · rw [List.filter_cons, List.filter_cons, ih hPl hsorted.2]
      by_cases hz : q z = true
      · simp [hz]
      · simp [hz]
    · have hempty : (z :: l).filter q = [] := by
        rw [List.filter_eq_nil_iff]
        intro y hy hqy
        have hkeyy : key y = key x := hq y hqy
        have hzy : key z ≤ key y := by
          rcases List.mem_cons.mp hy with rfl | hy'
          · omega
          · exact hsorted.1 y hy'
        exact (by assumption : ¬ cmp z x ≤ 0)
          ((hkey z x hPz hxP).mpr (by omega))
      rw [List.filter_cons, hx, hempty]
      simp [hempty]

theorem filter_sortCmp
    (hkey : ∀ a b, P a → P b → (cmp a b ≤ 0 ↔ key a ≤ key b))
    (q : α → Bool)
    (hconst : ∀ a b, q a = true → q b = true → key a = key b) :
    ∀ (l : List α), (∀ y ∈ l, P y) →
      (sortCmp cmp l).filter q = l.filter q := by
  intro l
  induction l using List.reverseRecOn with
  | nil => intro _; simp [sortCmp]
  | append_singleton l x ih =>
    intro hP
    have hPsort : ∀ y ∈ sortCmp cmp l, P y :=
      fun y hy => hP y (List.mem_append_left _ ((mem_sortCmp cmp).mp hy))
    have hPl : ∀ y ∈ l, P y := fun y hy => hP y (List.mem_append_left _ hy)
    rw [sortCmp_append_singleton]
    by_cases hx : q x = true
    · rw [filter_insertCmp_pos cmp key P hkey q x hx
        (fun a ha => hconst a x ha hx) (hP x (by simp)) _ hPsort
        (sortCmp_sorted cmp key P hkey _ hPl), ih hPl]
      rw [List.filter_append, List.filter_cons, hx]
      simp
    · have hx' : q x = false := by simpa using hx
      rw [filter_insertCmp_neg cmp q x hx', ih hPl]
      rw [List.filter_append, List.filter_cons, hx']
      simp

end StableSortLemmas

/-! The recommendation comparator agrees with the lexicographic rank key on
valid recommendations, and every generated recommendation is valid. -/

section RecommendationLemmas

open RecommendationEngine

theorem rankOfPriority_bounds {s : String} {v : Int}
    (h : rankOfPriority s = some v) : 1 ≤ v ∧ v ≤ 3 := by
  unfold rankOfPriority at h
  split at h <;> simp_all <;> omega

theorem rankOfImpact_bounds {s : String} {v : Int}
    (h : rankOfImpact s = some v) : 1 ≤ v ∧ v ≤ 3 := by
  unfold rankOfImpact at h
  split at h <;> simp_all <;> omega

theorem rankOfEffort_bounds {s : String} {v : Int}
    (h : rankOfEffort s = some v) : 1 ≤ v ∧ v ≤ 3 := by
  unfold rankOfEffort at h
  split at h <;> simp_all <;> omega

theorem recCmp_valid {a b : Rec} (ha : validRec a) (hb : validRec b) :
    recCmp a b =
      if pRank b - pRank a ≠ 0 then pRank b - pRank a
      else if iRank b - iRank a ≠ 0 then iRank b - iRank a
      else eRank a - eRank b := by
  obtain ⟨pa, hpa⟩ := Option.isSome_iff_exists.mp ha.1
  obtain ⟨ia, hia⟩ := Option.isSome_iff_exists.mp ha.2.1
  obtain ⟨ea, hea⟩ := Option.isSome_iff_exists.mp ha.2.2
  obtain ⟨pb, hpb⟩ := Option.isSome_iff_exists.mp hb.1
  obtain ⟨ib, hib⟩ := Option.isSome_iff_exists.mp hb.2.1
  obtain ⟨eb, heb⟩ := Option.isSome_iff_exists.mp hb.2.2
  simp only [recCmp, recCmpRaw, pRank, iRank, eRank,
    hpa, hia, hea, hpb, hib, heb, Option.getD_some]
  split_ifs <;> simp

theorem validRec_key_le {a b : Rec} (ha : validRec a) (hb : validRec b) :
    recCmp a b ≤ 0 ↔ recKey a ≤ recKey b := by
  obtain ⟨pa, hpa⟩ := Option.isSome_iff_exists.mp ha.1
  obtain ⟨ia, hia⟩ := Option.isSome_iff_exists.mp ha.2.1
  obtain ⟨ea, hea⟩ := Option.isSome_iff_exists.mp ha.2.2
  obtain ⟨pb, hpb⟩ := Option.isSome_iff_exists.mp hb.1
  obtain ⟨ib, hib⟩ := Option.isSome_iff_exists.mp hb.2.1
  obtain ⟨eb, heb⟩ := Option.isSome_iff_exists.mp hb.2.2
  have bpa := rankOfPriority_bounds hpa
  have bia := rankOfImpact_bounds hia
  have bea := rankOfEffort_bounds hea
  have bpb := rankOfPriority_bounds hpb
  have bib := rankOfImpact_bounds hib
  have beb := rankOfEffort_bounds heb
  rw [recCmp_valid ha hb]
  unfold recKey pRank iRank eRank
  rw [hpa, hia, hea, hpb, hib, heb]
  simp only [Option.getD_some]
  split_ifs <;> omega

theorem validRec_before_iff {a b : Rec} (ha : validRec a) (hb : validRec b) :
    recBefore a b ↔ recKey a ≤ recKey b := by
  obtain ⟨pa, hpa⟩ := Option.isSome_iff_exists.mp ha.1
  obtain ⟨ia, hia⟩ := Option.isSome_iff_exists.mp ha.2.1
  obtain ⟨ea, hea⟩ := Option.isSome_iff_exists.mp ha.2.2
  obtain ⟨pb, hpb⟩ := Option.isSome_iff_exists.mp hb.1
  obtain ⟨ib, hib⟩ := Option.isSome_iff_exists.mp hb.2.1
  obtain ⟨eb, heb⟩ := Option.isSome_iff_exists.mp hb.2.2
  have bpa := rankOfPriority_bounds hpa
  have bia := rankOfImpact_bounds hia
  have bea := rankOfEffort_bounds hea
  have bpb := rankOfPriority_bounds hpb
  have bib := rankOfImpact_bounds hib
  have beb := rankOfEffort_bounds heb
  unfold recBefore recKey pRank iRank eRank
  rw [hpa, hia, hea, hpb, hib, heb]
  simp only [Option.getD_some]
  omega

theorem mem_of_mem_ite_nil {β : Type} {c : Prop} [Decidable c] {l : List β} {x : β}
    (h : x ∈ if c then l else []) : x ∈ l := by
  split at h
  · exact h
  · simp at h

theorem perf_valid (nodes : List Node) (edges : List Edge) :
    ∀ r ∈ generatePerformanceRecommendations nodes edges, validRec r := by
  intro r hr
  unfold generatePerformanceRecommendations at hr
  rcases List.mem_append.mp hr with h | h
  · rcases List.mem_append.mp h with h | h <;>
      (have h' := mem_of_mem_ite_nil h
       rw [List.mem_singleton] at h'
       subst h'
       exact ⟨rfl, rfl, rfl⟩)
  · have h' := mem_of_mem_ite_nil h
    rw [List.mem_singleton] at h'
    subst h'
    exact ⟨rfl, rfl, rfl⟩

theorem structural_valid (nodes : List Node) (edges : List Edge) :
    ∀ r ∈ generateStructuralRecommendations nodes edges, validRec r := by
  intro r hr
  unfold generateStructuralRecommendations at hr
  rcases List.mem_append.mp hr with h | h
  · rcases List.mem_append.mp h with h | h <;>
      (have h' := mem_of_mem_ite_nil h
       rw [List.mem_singleton] at h'
       subst h'
       exact ⟨rfl, rfl, rfl⟩)
  · have h' := mem_of_mem_ite_nil h
    rw [List.mem_singleton] at h'
    subst h'
    exact ⟨rfl, rfl, rfl⟩

theorem usability_valid (nodes : List Node) (edges : List Edge) :
    ∀ r ∈ generateUsabilityRecommendations nodes edges, validRec r := by
  intro r hr
  unfold generateUsabilityRecommendations at hr
  rcases List.mem_append.mp hr with h | h
  · rcases List.mem_append.mp h with h | h <;>
      (have h' := mem_of_mem_ite_nil h
       rw [List.mem_singleton] at h'
       subst h'
       exact ⟨rfl, rfl, rfl⟩)
  · have h' := mem_of_mem_ite_nil h
    rw [List.mem_singleton] at h'
    subst h'
    exact ⟨rfl, rfl, rfl⟩

theorem security_valid (nodes : List Node) (edges : List Edge) :
    ∀ r ∈ generateSecurityRecommendations nodes edges, validRec r := by
  intro r hr
  unfold generateSecurityRecommendations at hr
  rcases List.mem_append.mp hr with h | h
  · rcases List.mem_append.mp h with h | h <;>
      (have h' := mem_of_mem_ite_nil h
       rw [List.mem_singleton] at h'
       subst h'
       exact ⟨rfl, rfl, rfl⟩)
  · have h' := mem_of_mem_ite_nil h
    rw [List.mem_singleton] at h'
    subst h'
    exact ⟨rfl, rfl, rfl⟩

theorem maintainability_valid (nodes : List Node) (edges : List Edge) :
    ∀ r ∈ generateMaintainabilityRecommendations nodes edges, validRec r := by
  intro r hr
  unfold generateMaintainabilityRecommendations at hr
  rcases List.mem_append.mp hr with h | h
  · have h' := mem_of_mem_ite_nil h
    rw [List.mem_singleton] at h'
    subst h'
    exact ⟨rfl, rfl, rfl⟩
  · rcases List.mem_cons.mp h with h' | h'
    · subst h'
      exact ⟨rfl, rfl, rfl⟩
    · rw [List.mem_singleton] at h'
      subst h'
      exact ⟨rfl, rfl, rfl⟩

theorem scalability_valid (nodes : List Node) (edges : List Edge) :
    ∀ r ∈ generateScalabilityRecommendations nodes edges, validRec r := by
  intro r hr
  unfold generateScalabilityRecommendations at hr
  rcases List.mem_append.mp hr with h | h
  · rcases List.mem_append.mp h with h | h <;>
      (have h' := mem_of_mem_ite_nil h
       rw [List.mem_singleton] at h'
       subst h'
       exact ⟨rfl, rfl, rfl⟩)
  · rw [List.mem_singleton] at h
    subst h
    exact ⟨rfl, rfl, rfl⟩

theorem gather_valid (nodes : List Node) (edges : List Edge) (analysisType : String) :
    ∀ r ∈ gatherRecommendations nodes edges analysisType, validRec r := by
  intro r hr
  unfold gatherRecommendations at hr
  rcases List.mem_append.mp hr with h | h
  · rcases List.mem_append.mp h with h | h
    · rcases List.mem_append.mp h with h | h
      · rcases List.mem_append.mp h with h | h
        · rcases List.mem_append.mp h with h | h
          · exact perf_valid nodes edges r (mem_of_mem_ite_nil h)
          · exact structural_valid nodes edges r (mem_of_mem_ite_nil h)
        · exact usability_valid nodes edges r (mem_of_mem_ite_nil h)
      · exact security_valid nodes edges r (mem_of_mem_ite_nil h)
    · exact maintainability_valid nodes edges r (mem_of_mem_ite_nil h)
  · exact scalability_valid nodes edges r (mem_of_mem_ite_nil h)

theorem generateRecommendations_map_payload (nodes : List Node) (edges : List Edge)
    (analysisType : String) :
    (generateRecommendations nodes edges analysisType).map (·.payload) =
      sortCmp recCmp (gatherRecommendations nodes edges analysisType) := by
  unfold generateRecommendations prioritizeRecommendations
  rw [List.map_map]
  exact List.enum_map_snd _

end RecommendationLemmas

/-! Claim theorems. -/

/-- C6: `findPathsBetweenNodes` enumerates exactly the node-simple paths
from source to target; on the diamond a -> b, a -> c, b -> d, c -> d it
returns exactly 2 paths of 3 nodes each, and with source = target it
returns exactly the zero-length path `[source]`. -/
theorem claim_C6 :
    (∀ (nodes : List Node) (edges : List Edge) (s t : JsStr) (p : List JsStr),
      p ∈ ProcessAnalyzer.findPathsBetweenNodes s t nodes edges ↔
        IsSimplePathFrom edges s t p) ∧
    ProcessAnalyzer.findPathsBetweenNodes (some "a") (some "d")
      diamondNodes diamondEdges =
      [[some "a", some "b", some "d"], [some "a", some "c", some "d"]] ∧
    (ProcessAnalyzer.findPathsBetweenNodes (some "a") (some "d")
      diamondNodes diamondEdges).length = 2 ∧
    (∀ p ∈ ProcessAnalyzer.findPathsBetweenNodes (some "a") (some "d")
      diamondNodes diamondEdges, p.length = 3) ∧
    ProcessAnalyzer.findPathsBetweenNodes (some "a") (some "a")
      diamondNodes diamondEdges = [[some "a"]] :=
  ⟨fun nodes edges s t p => findPathsBetweenNodes_spec s t nodes edges p,
   by decide, by decide, by decide, by decide⟩

/-- C1 counterexample: `ProcessAnalyzer.analyzeFlow`, applied to the
well-shaped diagram s -> x -> e whose edges pass through the missing node
`x`, hits an internal failure (reading `.type` of a failed node lookup
while scoring the path), and its `catch` re-throws it wrapped as a
`Flow analysis failed: <reason>` error that escapes the public operation —
the input is not invalid in shape, so no exception is permitted by the
claim. -/
theorem claim_C1_cex :
    ProcessAnalyzer.analyzeFlow danglingNodes danglingEdges =
      Except.error ("Flow analysis failed: " ++ ProcessAnalyzer.undefinedTypeMsg) := by
  rfl

/-- C1 (amended): `DiagramValidator.validateDiagram` recovers every
internal failure locally and always returns a structured result, but
`ProcessAnalyzer.analyzeFlow` (and `RecommendationEngine.
generateRecommendations`, whose catch has the same shape) re-throws
internal failures wrapped as `<operation> failed: <reason>` exceptions:
every escaping failure of `analyzeFlow` is such a wrapped error, and such
an escape actually occurs on a well-shaped input. -/
theorem claim_C1 :
    (∀ v : Diagram, DiagramValidator.validateDiagramOp v =
      Except.ok (DiagramValidator.validateDiagram v)) ∧
    (∀ (nodes : List Node) (edges : List Edge) (im ap : Bool),
      (∃ r, ProcessAnalyzer.analyzeFlow nodes edges im ap = Except.ok r) ∨
      (∃ m, ProcessAnalyzer.analyzeFlow nodes edges im ap =
        Except.error ("Flow analysis failed: " ++ m))) ∧
    (∃ (nodes : List Node) (edges : List Edge),
      ProcessAnalyzer.analyzeFlow nodes edges =
        Except.error ("Flow analysis failed: " ++ ProcessAnalyzer.undefinedTypeMsg)) := by
  refine ⟨fun v => rfl, ?_, danglingNodes, danglingEdges, rfl⟩
  intro nodes edges im ap
  cases hb : ProcessAnalyzer.analyzeFlowBody nodes edges im ap with
  | error m =>
    right
    exact ⟨m, by simp [ProcessAnalyzer.analyzeFlow, hb]⟩
  | ok r =>
    left
    exact ⟨r, by simp [ProcessAnalyzer.analyzeFlow, hb]⟩

/-- C8: `generateRecommendations` returns the triggered recommendations as
a permutation sorted by (priority desc, impact desc, effort asc) under the
fixed rank tables; the sort is stable (recommendations with identical
priority, impact and effort keep their generation order, stated as
filter-preservation); and each returned item's `rank` is its 1-based
position. -/
theorem claim_C8 (nodes : List Node) (edges : List Edge) (analysisType : String) :
    (∀ (i : Nat) (h : i < (RecommendationEngine.generateRecommendations
        nodes edges analysisType).length),
      ((RecommendationEngine.generateRecommendations nodes edges analysisType).get
        ⟨i, h⟩).rank = i + 1) ∧
    ((RecommendationEngine.generateRecommendations nodes edges analysisType).map
        (·.payload)).Perm
      (RecommendationEngine.gatherRecommendations nodes edges analysisType) ∧
    ((RecommendationEngine.generateRecommendations nodes edges analysisType).map
        (·.payload)).Pairwise RecommendationEngine.recBefore ∧
    (∀ p i e : String,
      ((RecommendationEngine.generateRecommendations nodes edges analysisType).map
          (·.payload)).filter
        (fun r => r.priority == p && r.impact == i && r.effort == e) =
      (RecommendationEngine.gatherRecommendations nodes edges analysisType).filter
        (fun r => r.priority == p && r.impact == i && r.effort == e)) := by
  have hvalid := gather_valid nodes edges analysisType
  have hkeyG : ∀ a b, RecommendationEngine.validRec a →
      RecommendationEngine.validRec b →
      (RecommendationEngine.recCmp a b ≤ 0 ↔
        RecommendationEngine.recKey a ≤ RecommendationEngine.recKey b) :=
    fun a b ha hb => validRec_key_le ha hb
  have hmap := generateRecommendations_map_payload nodes edges analysisType
  refine ⟨?_, ?_, ?_, ?_⟩
  · intro i h
    unfold RecommendationEngine.generateRecommendations at h ⊢
    simp [List.getElem_map, List.getElem_enum]
  · rw [hmap]
    exact sortCmp_perm RecommendationEngine.recCmp _
  · rw [hmap]
    have hsorted := sortCmp_sorted RecommendationEngine.recCmp
      RecommendationEngine.recKey RecommendationEngine.validRec hkeyG _ hvalid
    refine hsorted.imp_of_mem ?_
    intro a b ha hb hle
    have hva := hvalid a ((mem_sortCmp RecommendationEngine.recCmp).mp ha)
    have hvb := hvalid b ((mem_sortCmp RecommendationEngine.recCmp).mp hb)
    exact (validRec_before_iff hva hvb).mpr hle
  · intro p i e
    rw [hmap]
    refine filter_sortCmp RecommendationEngine.recCmp RecommendationEngine.recKey
      RecommendationEngine.validRec hkeyG _ ?_ _ hvalid
    intro a b ha hb
    simp only [Bool.and_eq_true, beq_iff_eq] at ha hb
    unfold RecommendationEngine.recKey RecommendationEngine.pRank
      RecommendationEngine.iRank RecommendationEngine.eRank
    rw [ha.1.1, ha.1.2, ha.2, hb.1.1, hb.1.2, hb.2]

/-- C5 counterexample: on a diagram with no `start`-typed node whose only
node has no incoming edge, `findReachableNodes` returns the empty set: the
claimed fallback to nodes with no incoming edge does not exist in this
function. -/
theorem claim_C5_cex :
    (∀ n ∈ noStartNodes, n.type ≠ some "start") ∧
    (∀ e ∈ ([] : List Edge), e.target ≠ (sampleNode "a" "decision").id) ∧
    some "a" ∉ DiagramValidator.findReachableNodes noStartNodes [] ∧
    DiagramValidator.findReachableNodes noStartNodes [] = [] := by
  decide

/-- C5 (amended): `findReachableNodes` returns exactly the ids reachable by
following edges forward from the nodes typed `start` (no fallback start
set); on the chain start -> a -> b -> end it returns exactly
`{start, a, b, end}`. -/
theorem claim_C5 :
    (∀ (nodes : List Node) (edges : List Edge) (y : JsStr),
      y ∈ DiagramValidator.findReachableNodes nodes edges ↔
        ∃ n ∈ nodes, n.type = some "start" ∧ Reaches edges n.id y) ∧
    DiagramValidator.findReachableNodes chainNodes chainEdges =
      [some "start", some "a", some "b", some "end"] ∧
    (DiagramValidator.findReachableNodes chainNodes chainEdges).toFinset =
      {some "start", some "a", some "b", some "end"} :=
  ⟨findReachableNodes_spec, by decide, by decide⟩

/-- C10: a dangling edge out of a start node makes its missing target id
reachable, so the returned set is not a subset of the node ids; the
unreachable-node warnings are nevertheless attached only to real nodes. -/
theorem claim_C10 (nodes : List Node) (edges : List Edge) (s : Node) (x : String)
    (hs : s ∈ nodes) (hstart : s.type = some "start")
    (hedge : ∃ e ∈ edges, e.source = s.id ∧ e.target = some x)
    (hnotnode : ∀ n ∈ nodes, n.id ≠ some x) :
    some x ∈ DiagramValidator.findReachableNodes nodes edges ∧
    some x ∉ nodes.map (·.id) ∧
    (∀ w ∈ (DiagramValidator.validateFlow nodes edges).2,
      w.ftype = "unreachable_node" → ∃ n ∈ nodes, w.nodeId = some n.id) := by
  refine ⟨?_, ?_, ?_⟩
  · refine (findReachableNodes_spec nodes edges (some x)).mpr ⟨s, hs, hstart, ?_⟩
    obtain ⟨e, he, h1, h2⟩ := hedge
    exact Relation.ReflTransGen.single ⟨e, he, h1, h2⟩
  · simp only [List.mem_map]
    rintro ⟨n, hn, hid⟩
    exact hnotnode n hn hid
  · intro w hw hft
    simp only [DiagramValidator.validateFlow, List.mem_append, List.mem_map] at hw
    rcases hw with ((⟨n, hn, rfl⟩ | ⟨n, hn, rfl⟩) | ⟨n, hn, rfl⟩) | ⟨c, hc, rfl⟩
    · exact ⟨n, (List.mem_filter.mp hn).1, rfl⟩
    · exact ⟨n, (List.mem_filter.mp hn).1, rfl⟩
    · exact ⟨n, (List.mem_filter.mp hn).1, rfl⟩
    · simp at hft

/-- Witness for C10 at the concrete dangling diagram s -> x -> e. -/
theorem claim_C10_witness :
    sampleNode "s" "start" ∈ danglingNodes ∧
    some "x" ∈ DiagramValidator.findReachableNodes danglingNodes danglingEdges ∧
    some "x" ∉ danglingNodes.map (·.id) :=
  ⟨by decide,
   (claim_C10 danglingNodes danglingEdges (sampleNode "s" "start") "x"
     (by decide) rfl ⟨sampleEdge "e1" "s" "x", by decide, rfl, rfl⟩ (by decide)).1,
   (claim_C10 danglingNodes danglingEdges (sampleNode "s" "start") "x"
     (by decide) rfl ⟨sampleEdge "e1" "s" "x", by decide, rfl, rfl⟩ (by decide)).2.1⟩

/-- C2 counterexample: on a diagram of two isolated nodes (two connected
components, no edges, no decision nodes) the computed cyclomatic
complexity (0) differs from the claimed
`edges − nodes + 2·connectedComponents + decisionNodeCount` (2), because
`findStronglyConnectedComponents` hard-codes the component count to 1. -/
theorem claim_C2_cex :
    ComplexityAnalyzer.calculateCyclomaticComplexity twoIslandNodes [] ≠
      (([] : List Edge).length : Int) - (twoIslandNodes.length : Int) +
        2 * (specConnectedComponentCount twoIslandNodes [] : Int) +
        ((twoIslandNodes.filter (fun n => n.type == some "decision")).length : Int) := by
  decide

/-- C2 (amended): for every diagram, both modules' cyclomatic-complexity
metrics equal `edges − nodes + 2 + decisionNodeCount`, i.e. the McCabe
formula with the connected-component count fixed at 1. -/
theorem claim_C2 :
    ∀ (nodes : List Node) (edges : List Edge),
      ComplexityAnalyzer.calculateCyclomaticComplexity nodes edges =
        (edges.length : Int) - (nodes.length : Int) + 2 +
          ((nodes.filter (fun n => n.type == some "decision")).length : Int) ∧
      ProcessAnalyzer.calculateCyclomaticComplexity edges nodes =
        (edges.length : Int) - (nodes.length : Int) + 2 +
          ((nodes.filter (fun n => n.type == some "decision")).length : Int) := by
  intro nodes edges
  constructor
  · simp [ComplexityAnalyzer.calculateCyclomaticComplexity,
      ComplexityAnalyzer.findStronglyConnectedComponents]
  · simp [ProcessAnalyzer.calculateCyclomaticComplexity]

/-- C3 counterexample: a diagram whose nodes field is an empty array but
whose name is missing yields two errors (`missing_name` and
`empty_diagram`), not exactly one. -/
theorem claim_C3_cex :
    emptyNodesNoName.nodes = some [] ∧
    ¬ (DiagramValidator.validateDiagram emptyNodesNoName).errors.length = 1 := by
  exact ⟨rfl, by decide⟩

/-- C3 (amended): for every diagram whose basic structure is otherwise
valid (truthy id, name with non-blank trim, nodes an empty array, edges
absent or an empty array), `validateDiagram` reports exactly one error, of
type `empty_diagram`, and returns `isValid = false`. -/
theorem claim_C3 (idStr nameStr : String) (eo : Option (List Edge))
    (hid : idStr ≠ "") (hname : jsTrim nameStr ≠ "")
    (heo : eo = none ∨ eo = some []) :
    (DiagramValidator.validateDiagram { id := some idStr, name := some nameStr,
                                        nodes := some [], edges := eo }).errors =
      [{ ftype := "empty_diagram",
         message := "Diagram must contain at least one node",
         severity := "error" }] ∧
    (DiagramValidator.validateDiagram { id := some idStr, name := some nameStr,
                                        nodes := some [], edges := eo }).isValid = false := by
  rcases heo with rfl | rfl <;>
    simp [DiagramValidator.validateDiagram, DiagramValidator.validateBasicStructure,
      DiagramValidator.validateNodes, DiagramValidator.validateEdges,
      DiagramValidator.validateFlow, DiagramValidator.validateSemantics,
      DiagramValidator.findReachableNodes, DiagramValidator.detectCycles,
      truthy, jsShow, hid, hname]

/-- Witness for C3 (amended) at a concrete diagram. -/
theorem claim_C3_witness :
    "d1" ≠ "" ∧ jsTrim "My Diagram" ≠ "" ∧
    (DiagramValidator.validateDiagram { id := some "d1", name := some "My Diagram",
                                        nodes := some [], edges := some [] }).errors =
      [{ ftype := "empty_diagram",
         message := "Diagram must contain at least one node",
         severity := "error" }] ∧
    (DiagramValidator.validateDiagram { id := some "d1", name := some "My Diagram",
                                        nodes := some [], edges := some [] }).isValid = false :=
  ⟨by decide, by decide,
   (claim_C3 "d1" "My Diagram" (some []) (by decide) (by decide) (Or.inr rfl)).1,
   (claim_C3 "d1" "My Diagram" (some []) (by decide) (by decide) (Or.inr rfl)).2⟩

/-- C4: the validation score is `max(0, 100 − 20·errors − 5·warnings −
suggestions)`, both as the scoring function computes it and as
`validateDiagram` returns it; it lies in `[0, 100]` and is monotonically
non-increasing in each count. -/
theorem claim_C4 :
    (∀ errors warnings suggestions : List Finding,
      DiagramValidator.calculateValidationScore errors warnings suggestions =
        max 0 (100 - 20 * (errors.length : Int) - 5 * (warnings.length : Int)
          - (suggestions.length : Int))) ∧
    (∀ v : Diagram, (DiagramValidator.validateDiagram v).score =
      max 0 (100 - 20 * ((DiagramValidator.validateDiagram v).errors.length : Int)
        - 5 * ((DiagramValidator.validateDiagram v).warnings.length : Int)
        - ((DiagramValidator.validateDiagram v).suggestions.length : Int))) ∧
    (∀ errors warnings suggestions : List Finding,
      0 ≤ DiagramValidator.calculateValidationScore errors warnings suggestions ∧
      DiagramValidator.calculateValidationScore errors warnings suggestions ≤ 100) ∧
    (∀ e e' w w' s s' : List Finding,
      e.length ≤ e'.length → w.length ≤ w'.length → s.length ≤ s'.length →
      DiagramValidator.calculateValidationScore e' w' s' ≤
        DiagramValidator.calculateValidationScore e w s) := by
  refine ⟨?_, ?_, ?_, ?_⟩
  · intro e w s
    simp only [DiagramValidator.calculateValidationScore]
    omega
  · intro v
    have h : (DiagramValidator.validateDiagram v).score =
        DiagramValidator.calculateValidationScore
          (DiagramValidator.validateDiagram v).errors
          (DiagramValidator.validateDiagram v).warnings
          (DiagramValidator.validateDiagram v).suggestions := rfl
    rw [h]
    simp only [DiagramValidator.calculateValidationScore]
    omega
  · intro e w s
    simp only [DiagramValidator.calculateValidationScore]
    omega
  · intro e e' w w' s s' he hw hs
    simp only [DiagramValidator.calculateValidationScore]
    omega

/-- Witness for C4's monotonicity at concrete finding lists. -/
theorem claim_C4_witness :
    ([] : List Finding).length ≤
      [({ ftype := "empty_diagram", message := "m", severity := "error" } : Finding)].length ∧
    DiagramValidator.calculateValidationScore
        [{ ftype := "empty_diagram", message := "m", severity := "error" }] [] [] ≤
      DiagramValidator.calculateValidationScore [] [] [] :=
  ⟨by decide,
   claim_C4.2.2.2 [] [{ ftype := "empty_diagram", message := "m", severity := "error" }]
     [] [] [] [] (by decide) (by decide) (by decide)⟩

/-- C7: on the 3-cycle a -> b -> c -> a, `detectCycles` reports exactly the
cycle `[a, b, c, a]` (the ordered sequence from the first repeated node to
its re-encounter), whose node set is exactly `{a, b, c}`. -/
theorem claim_C7 :
    DiagramValidator.detectCycles cycleNodes cycleEdges =
      [[some "a", some "b", some "c", some "a"]] ∧
    ∀ cyc ∈ DiagramValidator.detectCycles cycleNodes cycleEdges,
      cyc.toFinset = {some "a", some "b", some "c"} := by
  exact ⟨by decide, by decide⟩

/-- C9: the analysis operations are read-only with respect to their input:
the state-passing embeddings of `validateDiagram`, `analyze` and
`generateRecommendations` return the caller's diagram (its nodes with
their types, positions and data, and its edges) unchanged. -/
theorem claim_C9 :
    ∀ (v : Diagram) (nodes : List Node) (edges : List Edge) (analysisType : String),
      (DiagramValidator.validateDiagramRun v).2 = v ∧
      (DiagramValidator.validateDiagramRun v).2.nodes = v.nodes ∧
      (DiagramValidator.validateDiagramRun v).2.edges = v.edges ∧
      (ComplexityAnalyzer.analyzeRun nodes edges).2 = (nodes, edges) ∧
      (ComplexityAnalyzer.analyzeRun nodes edges).2.1.map (·.type) = nodes.map (·.type) ∧
      (ComplexityAnalyzer.analyzeRun nodes edges).2.1.map (·.position) =
        nodes.map (·.position) ∧
      (ComplexityAnalyzer.analyzeRun nodes edges).2.1.map (·.data) = nodes.map (·.data) ∧
      (RecommendationEngine.generateRecommendationsRun nodes edges analysisType).2 =
        (nodes, edges) := by
  intro v nodes edges analysisType
  exact ⟨rfl, rfl, rfl, rfl, rfl, rfl, rfl, rfl⟩

end VisualizeProcess
